import Mathlib

/-! # ping: request/acknowledgement protocol engine (src/src/ping.cc)

Shallow embedding of the master (Initiator) and slave (Responder) loops of
`main` in `ping.cc`.

* The link (`iqpr_rxpacket`) is an oracle `link : Nat → Option RxPacket`: the
  outcome of the k-th receive call of the run (`none` when the call returns 0).
* `rand()` is an oracle `rand : Nat → Nat`: the value of the k-th call.
* `unsigned int` variables are naturals reduced modulo `2^32` where the source
  does arithmetic on them, `unsigned long` modulo `2^64`.
* Output is a list of events; `printf` lines carry the text of their format
  (without the newline) and their integer arguments, `fflush` is not modelled.
* Loops that the source does not bound (the acknowledgement wait, the slave's
  receive loop) take fuel; running out of fuel is reported as `Run.fuelOut`
  together with the state reached, so that safety properties cover runs that
  never finish.
-/

namespace Ping

/-! ## Constants and configuration -/

def PING_PACKET_DATA : Nat := 59
def PING_PACKET_ACK : Nat := 77

/-- Modulus of `unsigned int`. -/
def U32 : Nat := 4294967296

/-- Modulus of `unsigned long` (LP64). -/
def U64 : Nat := 18446744073709551616

/-- Options of `main` that the protocol loops read.  `ack_timeout` and
`timespec` are local constants of the source (50000 and 500). -/
structure Params where
  num_packets : Nat
  max_num_attempts : Nat
  tx_payload_len : Nat
  ack_timeout : Nat
  timespec : Nat
  verbose : Bool
  deriving DecidableEq, Repr

/-- Defaults of `main`: N = 1000, A = 100, payload 200 bytes, quiet. -/
def Params.default : Params :=
  { num_packets := 1000, max_num_attempts := 100, tx_payload_len := 200,
    ack_timeout := 50000, timespec := 500, verbose := false }

/-- Every option is an `unsigned int`. -/
def Params.wf (p : Params) : Prop :=
  p.num_packets < U32 ∧ p.max_num_attempts < U32 ∧ p.tx_payload_len < U32 ∧
  p.ack_timeout < U32 ∧ p.timespec < U32

instance (p : Params) : Decidable p.wf := by
  unfold Params.wf; infer_instance

/-- What `iqpr_rxpacket` hands back when it returns nonzero. -/
structure RxPacket where
  rx_header : List Nat
  rx_header_valid : Bool
  rx_payload_len : Nat
  rx_payload_valid : Bool
  deriving DecidableEq, Repr

/-- Observable actions: a call of `iqpr_txpacket`, a status symbol written to
stdout in quiet mode, or a line printed with `printf` (format and arguments). -/
inductive Event where
  | tx (header : List Nat) (payload : List Nat) (len : Nat)
  | sym (c : Char)
  | info (msg : String) (args : List Nat)
  deriving DecidableEq, Repr

def Event.isTx : Event → Bool
  | .tx _ _ _ => true
  | _ => false

/-- Result of a loop run with fuel. -/
inductive Run (σ : Type) where
  | done (s : σ)
  | fuelOut (s : σ)
  deriving DecidableEq, Repr

def Run.state {σ : Type} : Run σ → σ
  | .done s => s
  | .fuelOut s => s

def Run.finished {σ : Type} : Run σ → Bool
  | .done _ => true
  | .fuelOut _ => false

/-! ## Header coding -/

/-- Sequence identifier read from a header: `(h[0] << 8) | h[1]`. -/
def seqId (h : List Nat) : Nat :=
  (h.getD 0 0 <<< 8) ||| h.getD 1 0

/-- Eleven filler bytes `rand() & 0xff`, starting at the `r`-th call of `rand`. -/
def filler (rand : Nat → Nat) (r : Nat) : List Nat :=
  (List.range 11).map (fun n => rand (r + n) &&& 0xff)

/-- Header of a DATA packet (ping.cc 187-191). -/
def dataHeader (rand : Nat → Nat) (r : Nat) (tx_pid : Nat) : List Nat :=
  [(tx_pid >>> 8) &&& 0xff, tx_pid &&& 0xff, PING_PACKET_DATA] ++ filler rand r

/-- Header of an ACK packet answering `rx_header` (ping.cc 334-338). -/
def ackHeader (rand : Nat → Nat) (r : Nat) (rx_header : List Nat) : List Nat :=
  [rx_header.getD 0 0, rx_header.getD 1 0, PING_PACKET_ACK] ++ filler rand r

/-! ## Master node -/

/-- Classification of one received packet by the master (ping.cc 229-250). -/
structure Classified where
  rx_pid : Nat
  accepted : Bool
  events : List Event
  deriving DecidableEq, Repr

def classify (verbose : Bool) (tx_pid : Nat) (pkt : RxPacket) : Classified :=
  let rx_pid := seqId pkt.rx_header
  if !pkt.rx_header_valid then
    { rx_pid := rx_pid, accepted := false,
      events := if verbose then [Event.info "  rx header invalid!" []] else [Event.sym 'x'] }
  else if pkt.rx_header.getD 2 0 != PING_PACKET_ACK then
    { rx_pid := rx_pid, accepted := false, events := [] }
  else if !pkt.rx_payload_valid then
    { rx_pid := rx_pid, accepted := false,
      events := if verbose then [Event.info "  rx payload invalid!" []] else [Event.sym 'X'] }
  else if rx_pid != tx_pid then
    { rx_pid := rx_pid, accepted := false,
      events := if verbose then [Event.info "  ack pid (%4u) does not match tx pid" [rx_pid]]
                else [Event.sym '?'] }
  else
    { rx_pid := rx_pid, accepted := true,
      events := if verbose then [] else [Event.sym '.'] }

/-- Variables of the master loop, the oracle cursors and the history.
`sent` and `acked` are ghost: the `tx_pid` at each `iqpr_txpacket` call and at
each pass through the `if (ack_received)` branch; `bailed` records the
`break` of ping.cc 270. -/
structure MasterState where
  tx_pid : Nat
  tx_header : List Nat
  tx_payload : List Nat
  num_attempts : Nat
  ack_received : Bool
  timer : Nat
  rx_pid : Nat
  num_bytes_received : Nat
  rcalls : Nat
  polls : Nat
  out : List Event
  sent : List Nat
  acked : List Nat
  bailed : Bool
  deriving DecidableEq, Repr

/-- State at `gettimeofday(&timer0)`: `rx_pid = 0`, `num_attempts = 0`,
`num_bytes_received = 0`, `tx_pid = 0` from the `for` initialiser. -/
def MasterState.init : MasterState :=
  { tx_pid := 0, tx_header := [], tx_payload := [], num_attempts := 0,
    ack_received := false, timer := 0, rx_pid := 0, num_bytes_received := 0,
    rcalls := 0, polls := 0, out := [], sent := [], acked := [], bailed := false }

/-- One pass of the body of `while (!ack_received && timer < ack_timeout)`
(ping.cc 219-250). -/
def pollOnce (p : Params) (link : Nat → Option RxPacket) (s : MasterState) : MasterState :=
  let s1 := { s with polls := s.polls + 1, timer := (s.timer + p.timespec) % U32 }
  match link s.polls with
  | none => s1
  | some pkt =>
    let c := classify p.verbose s1.tx_pid pkt
    { s1 with rx_pid := c.rx_pid,
              ack_received := if c.accepted then true else s1.ack_received,
              out := s1.out ++ c.events }

/-- The acknowledgement wait loop (ping.cc 218-251). -/
def ackWait (p : Params) (link : Nat → Option RxPacket) : Nat → MasterState → Run MasterState
  | fuel, s =>
    if !s.ack_received && decide (s.timer < p.ack_timeout) then
      match fuel with
      | 0 => .fuelOut s
      | fuel + 1 => ackWait p link fuel (pollOnce p link s)
    else .done s

/-- Start of one pass of the `do` body: count the attempt, transmit, clear the
timer and the flag (ping.cc 200-216). -/
def transmit (p : Params) (s : MasterState) : MasterState :=
  let n := (s.num_attempts + 1) % U32
  let line : List Event :=
    if p.verbose then
      [Event.info "transmitting packet %6u/%6u (attempt %4u/%4u) %c"
        [s.tx_pid, p.num_packets, n, p.max_num_attempts, if 1 < n then 42 else 32]]
    else []
  { s with num_attempts := n,
           out := s.out ++ line ++ [Event.tx s.tx_header s.tx_payload p.tx_payload_len],
           sent := s.sent ++ [s.tx_pid],
           timer := 0,
           ack_received := false }

/-- The `if (ack_received)` branch: credit the payload (ping.cc 255-259). -/
def creditAck (p : Params) (s : MasterState) : MasterState :=
  { s with num_bytes_received := (s.num_bytes_received + p.tx_payload_len) % U64,
           acked := s.acked ++ [s.tx_pid] }

/-- The `else` branch: print `T` in quiet mode (ping.cc 260-265). -/
def noteTimeout (p : Params) (s : MasterState) : MasterState :=
  if p.verbose then s else { s with out := s.out ++ [Event.sym 'T'] }

/-- The `do { ... } while (!ack_received && num_attempts < max_num_attempts)`
loop (ping.cc 199-266). -/
def attemptLoop (p : Params) (link : Nat → Option RxPacket) : Nat → MasterState → Run MasterState
  | 0, s => .fuelOut s
  | fuel + 1, s =>
    match ackWait p link fuel (transmit p s) with
    | .fuelOut s1 => .fuelOut s1
    | .done s1 =>
      if s1.ack_received then
        .done (creditAck p s1)
      else
        let s2 := noteTimeout p s1
        if !s2.ack_received && decide (s2.num_attempts < p.max_num_attempts) then
          attemptLoop p link fuel s2
        else .done s2

/-- Packet construction at the top of the `for` body (ping.cc 186-198). -/
def txInit (p : Params) (rand : Nat → Nat) (s : MasterState) : MasterState :=
  { s with tx_header := dataHeader rand s.rcalls s.tx_pid,
           tx_payload := (List.range p.tx_payload_len).map (fun n => rand (s.rcalls + 11 + n) % 256),
           rcalls := s.rcalls + 11 + p.tx_payload_len,
           ack_received := false,
           num_attempts := 0 }

/-- The `if (num_attempts == max_num_attempts)` branch: report and `break`
(ping.cc 268-271). -/
def bail (s : MasterState) : MasterState :=
  { s with out := s.out ++ [Event.info "transmitter reached maximum number of attemts; bailing" []],
           bailed := true }

/-- The increment `tx_pid++` of the `for` loop. -/
def nextPid (s : MasterState) : MasterState :=
  { s with tx_pid := (s.tx_pid + 1) % U32 }

/-- The `for (tx_pid = 0; tx_pid < num_packets; tx_pid++)` loop from the
current `tx_pid` on (ping.cc 184-272). -/
def sessionLoop (p : Params) (link : Nat → Option RxPacket) (rand : Nat → Nat) :
    Nat → MasterState → Run MasterState
  | 0, s => .fuelOut s
  | fuel + 1, s =>
    if s.tx_pid < p.num_packets then
      match attemptLoop p link fuel (txInit p rand s) with
      | .fuelOut s1 => .fuelOut s1
      | .done s1 =>
        if s1.num_attempts == p.max_num_attempts then .done (bail s1)
        else sessionLoop p link rand fuel (nextPid s1)
    else .done s

/-- The master branch of `main`. -/
def master (p : Params) (link : Nat → Option RxPacket) (rand : Nat → Nat) (fuel : Nat) :
    Run MasterState :=
  sessionLoop p link rand fuel MasterState.init

/-! ## Slave node -/

/-- Variables of the slave loop, the oracle cursors and the output. -/
structure SlaveState where
  rx_pid : Nat
  tx_header : List Nat
  num_bytes_received : Nat
  rcalls : Nat
  polls : Nat
  out : List Event
  deriving DecidableEq, Repr

def SlaveState.init : SlaveState :=
  { rx_pid := 0, tx_header := [], num_bytes_received := 0, rcalls := 0, polls := 0, out := [] }

/-- Body of the outer `do` loop after a packet was found (ping.cc 297-343);
each `continue` ends the body early.  The verbose progress line is recorded
without its floating-point `rssi` argument. -/
def slaveBody (p : Params) (rand : Nat → Nat) (s : SlaveState) (pkt : RxPacket) : SlaveState :=
  if !pkt.rx_header_valid then
    { s with out := s.out ++ (if p.verbose then [Event.info "  header crc : FAIL" []] else [Event.sym 'x']) }
  else if pkt.rx_header.getD 2 0 != PING_PACKET_DATA then
    s
  else
    let s1 := { s with rx_pid := seqId pkt.rx_header }
    if !pkt.rx_payload_valid then
      { s1 with out := s1.out ++
          (if p.verbose then [Event.info "  payload crc : FAIL [%4u]" [s1.rx_pid]] else [Event.sym 'X']) }
    else
      let s2 := { s1 with
        num_bytes_received := (s1.num_bytes_received + pkt.rx_payload_len) % U64,
        out := s1.out ++
          (if p.verbose then
            [Event.info "  ping received %4u data bytes on packet [%4u]" [pkt.rx_payload_len, s1.rx_pid]]
           else [Event.sym '.']) }
      let hdr := ackHeader rand s2.rcalls pkt.rx_header
      let ack_payload := (List.range 10).map (fun n => rand (s2.rcalls + 11 + n) &&& 0xff)
      { s2 with tx_header := hdr,
                rcalls := s2.rcalls + 21,
                out := s2.out ++ [Event.tx hdr ack_payload 10] }

/-- Exit test of the outer loop: `rx_pid != num_packets-1` in `unsigned int`. -/
def slaveContinues (p : Params) (s : SlaveState) : Bool :=
  s.rx_pid != (p.num_packets + U32 - 1) % U32

/-- The slave branch of `main` (ping.cc 281-345).  Each unit of fuel is one
call of `iqpr_rxpacket`: the inner loop repeats it until a packet is found,
then the body runs and the exit test is evaluated (also after `continue`). -/
def slaveLoop (p : Params) (link : Nat → Option RxPacket) (rand : Nat → Nat) :
    Nat → SlaveState → Run SlaveState
  | 0, s => .fuelOut s
  | fuel + 1, s =>
    match link s.polls with
    | none => slaveLoop p link rand fuel { s with polls := s.polls + 1 }
    | some pkt =>
      let s1 := slaveBody p rand { s with polls := s.polls + 1 } pkt
      if slaveContinues p s1 then slaveLoop p link rand fuel s1 else .done s1

def slave (p : Params) (link : Nat → Option RxPacket) (rand : Nat → Nat) (fuel : Nat) :
    Run SlaveState :=
  slaveLoop p link rand fuel SlaveState.init

end Ping

/-! # framestats_tx: frame headers (src/usrp-legacy/framestats_tx.cc)

Only the argument check on `payload_len` and the header written for each frame
are modelled; the frame itself is handed to the framing library. -/

namespace FramestatsTx

/-- Options of `main` read by the transmit loop.  `num_blocks` is computed in
the source from floating-point options and is a parameter here; `fec0`, `fec1`
are the numeric values of the enumeration. -/
structure Config where
  payload_len : Nat
  packet_spacing : Nat
  num_blocks : Nat
  fec0 : Nat
  fec1 : Nat
  deriving DecidableEq, Repr

/-- The branch `payload_len > (1<<16)` of the argument checks
(framestats_tx.cc 121): when it holds the program prints an error and returns. -/
def payloadLenRejected (payload_len : Nat) : Bool :=
  decide (payload_len > 1 <<< 16)

/-- The six header bytes written for a frame (framestats_tx.cc 207-212);
bytes 6 to 8 of `header[9]` are never written. -/
def writeHeader (pid payload_len fec0 fec1 : Nat) : List Nat :=
  [(pid >>> 8) &&& 0xff, pid &&& 0xff, (payload_len >>> 8) &&& 0xff, payload_len &&& 0xff,
   fec0 % 256, fec1 % 256]

/-- One generated frame: the value of `pid` when its header was written, the
header and the random payload. -/
structure Frame where
  pid : Nat
  header : List Nat
  payload : List Nat
  deriving DecidableEq, Repr

/-- Variables of the transmit loop: `pid`, the cursor of `rand()` and the
frames generated so far. -/
structure TxState where
  pid : Nat
  rcalls : Nat
  frames : List Frame
  deriving DecidableEq, Repr

/-- How the program ends: the argument check returned, the loop trapped on the
division by zero in `i % (packet_spacing+1)` (the state reached is kept), or
the loop ran to its end. -/
inductive Outcome where
  | rejected
  | divByZero (s : TxState)
  | finished (s : TxState)
  deriving DecidableEq, Repr

/-- Body of the `for` loop for block `i` (framestats_tx.cc 193-239): a frame is
generated when `i % (packet_spacing+1) == 0`, silence otherwise.  The divisor
is computed in `unsigned int`; when it is 0 (`packet_spacing = 2^32 - 1`) the
remainder traps and the result is `none`. -/
def txBlock (c : Config) (rand : Nat → Nat) (s : TxState) (i : Nat) : Option TxState :=
  if (c.packet_spacing + 1) % Ping.U32 = 0 then none
  else if i % ((c.packet_spacing + 1) % Ping.U32) == 0 then
    some
      { pid := (s.pid + 1) &&& 0xffff,
        rcalls := s.rcalls + c.payload_len,
        frames := s.frames ++
          [{ pid := s.pid,
             header := writeHeader s.pid c.payload_len c.fec0 c.fec1,
             payload := (List.range c.payload_len).map (fun j => rand (s.rcalls + j) % 256) }] }
  else some s

/-- The `for` loop over the block indices still to do. -/
def txBlocks (c : Config) (rand : Nat → Nat) : List Nat → TxState → Outcome
  | [], s => .finished s
  | i :: rest, s =>
    match txBlock c rand s i with
    | none => .divByZero s
    | some s1 => txBlocks c rand rest s1

/-- The loop `for (i=0; i<num_blocks; i++)` started with `pid = 0`
(framestats_tx.cc 189-244). -/
def txLoop (c : Config) (rand : Nat → Nat) : Outcome :=
  txBlocks c rand (List.range c.num_blocks) { pid := 0, rcalls := 0, frames := [] }

/-- The program from the `payload_len` check on. -/
def run (c : Config) (rand : Nat → Nat) : Outcome :=
  if payloadLenRejected c.payload_len then .rejected else txLoop c rand

/-- Frames generated by the time the program ended. -/
def Outcome.frames : Outcome → List Frame
  | .rejected => []
  | .divByZero s => s.frames
  | .finished s => s.frames

/-- The program run with `-n 65536` for one block: the largest payload length
the argument check lets through. -/
def maxLenCfg : Config :=
  { payload_len := 65536, packet_spacing := 0, num_blocks := 1, fec0 := 1, fec1 := 5 }

/-- A run of three blocks with 200-byte payloads. -/
def threeFrameCfg : Config :=
  { payload_len := 200, packet_spacing := 0, num_blocks := 3, fec0 := 1, fec1 := 5 }

end FramestatsTx

namespace Ping

/-! ## Vocabulary of the statements -/

/-- Whether the master, pending on `tx_pid`, accepts what the `j`-th receive
call returns. -/
def accepts (p : Params) (tx_pid : Nat) (link : Nat → Option RxPacket) (j : Nat) : Bool :=
  match link j with
  | none => false
  | some pkt => (classify p.verbose tx_pid pkt).accepted

/-- Number of receive calls of an attempt that times out: `ceil(T / P)`. -/
def pollsPerAttempt (p : Params) : Nat :=
  (p.ack_timeout + p.timespec - 1) / p.timespec

/-- The poll clock advances and never wraps: `0 < P` and `T + P ≤ 2^32`.
The constants of the source (50000, 500) satisfy it. -/
def Params.clockOk (p : Params) : Prop :=
  0 < p.timespec ∧ p.ack_timeout + p.timespec ≤ U32

instance (p : Params) : Decidable p.clockOk := by
  unfold Params.clockOk; infer_instance

/-! ### Concrete links and configurations used in the examples -/

/-- A link on which nothing ever arrives. -/
def silentLink : Nat → Option RxPacket := fun _ => none

/-- A `rand()` that always returns 0. -/
def zeroRand : Nat → Nat := fun _ => 0

/-- A fully valid ACK packet carrying sequence identifier `id` (below 65536). -/
def ackPacket (id : Nat) : RxPacket :=
  { rx_header := [id / 256, id % 256, PING_PACKET_ACK, 0, 0, 0, 0, 0, 0, 0, 0, 0, 0, 0],
    rx_header_valid := true, rx_payload_len := 10, rx_payload_valid := true }

/-- A link that delivers the ACK for `id` at receive call `at` and nothing else. -/
def ackAt (id j0 : Nat) : Nat → Option RxPacket :=
  fun j => if j = j0 then some (ackPacket id) else none

/-- A link that answers every receive call `j` with the ACK for identifier `j`. -/
def promptLink : Nat → Option RxPacket := fun j => some (ackPacket j)

/-- A DATA packet carrying sequence identifier `id` (below 65536) with a valid
header, a 200-byte payload and the given payload validity. -/
def dataPacket (id : Nat) (payload_valid : Bool) : RxPacket :=
  { rx_header := [id / 256, id % 256, PING_PACKET_DATA, 0, 0, 0, 0, 0, 0, 0, 0, 0, 0, 0],
    rx_header_valid := true, rx_payload_len := 200, rx_payload_valid := payload_valid }

/-- A packet whose header failed validation. -/
def badHeaderPacket : RxPacket :=
  { rx_header := [0, 0, 0, 0, 0, 0, 0, 0, 0, 0, 0, 0, 0, 0],
    rx_header_valid := false, rx_payload_len := 0, rx_payload_valid := false }

/-- A link that delivers `pkt` at the first receive call and nothing after. -/
def onePacket (pkt : RxPacket) : Nat → Option RxPacket :=
  fun j => if j = 0 then some pkt else none

/-- The configuration of the program run with `-N N -A A`: every other option
at its default and the timeout constants of the source. -/
def sourceCfg (N A : Nat) : Params :=
  { Params.default with num_packets := N, max_num_attempts := A }

/-- Configuration of the timing scenario `T = 500`, `P = 100` (five polls per
attempt), payload 200 bytes, quiet. -/
def scenario (N A : Nat) : Params :=
  { num_packets := N, max_num_attempts := A, tx_payload_len := 200,
    ack_timeout := 500, timespec := 100, verbose := false }

/-- A `rand()` whose `k`-th call returns `k`: every call gives a new value. -/
def countRand : Nat → Nat := fun k => k

/-- The program run with `-N 1 -A 2 -n 4`. -/
def shortPayloadCfg : Params :=
  { sourceCfg 1 2 with tx_payload_len := 4 }

/-- Timeout constants the program does not have, `T = 2^32 - 1` and
`P = 2^31`, for which the poll clock would wrap. -/
def wrapCfg : Params :=
  { sourceCfg 1 2 with ack_timeout := 4294967295, timespec := 2147483648 }

/-- The poll clock advances and the last value it reaches in an attempt that
times out, `ceil(T/P) * P`, fits in an `unsigned int`. -/
def Params.noWrap (p : Params) : Prop :=
  0 < p.timespec ∧ pollsPerAttempt p * p.timespec < U32

instance (p : Params) : Decidable p.noWrap := by
  unfold Params.noWrap; infer_instance

/-- Everything the acknowledgement wait leaves alone. -/
def WaitFrame (s t : MasterState) : Prop :=
  t.tx_pid = s.tx_pid ∧ t.tx_header = s.tx_header ∧ t.tx_payload = s.tx_payload ∧
  t.num_attempts = s.num_attempts ∧ t.num_bytes_received = s.num_bytes_received ∧
  t.rcalls = s.rcalls ∧ t.sent = s.sent ∧ t.acked = s.acked ∧ t.bailed = s.bailed

end Ping

namespace Ping

/-! ## Master: classification of a received packet -/

/-- C1: quiet-mode classification by the master of a packet received while
`tx_pid` is pending.  An invalid header prints `x` and is not accepted; a valid
header whose type is not ACK prints nothing; an ACK with an invalid payload
prints `X`; a valid ACK whose decoded sequence differs from `tx_pid` prints
`?`; the packet is accepted exactly when the header is valid, the type is ACK,
the payload is valid and the decoded sequence equals `tx_pid`, and `.` is
printed exactly in that case. -/
theorem classify_quiet (tx_pid : Nat) (pkt : RxPacket) :
    (pkt.rx_header_valid = false →
      (classify false tx_pid pkt).events = [Event.sym 'x']) ∧
    (pkt.rx_header_valid = true ∧ pkt.rx_header.getD 2 0 ≠ PING_PACKET_ACK →
      (classify false tx_pid pkt).events = []) ∧
    (pkt.rx_header_valid = true ∧ pkt.rx_header.getD 2 0 = PING_PACKET_ACK ∧
        pkt.rx_payload_valid = false →
      (classify false tx_pid pkt).events = [Event.sym 'X']) ∧
    (pkt.rx_header_valid = true ∧ pkt.rx_header.getD 2 0 = PING_PACKET_ACK ∧
        pkt.rx_payload_valid = true ∧ seqId pkt.rx_header ≠ tx_pid →
      (classify false tx_pid pkt).events = [Event.sym '?']) ∧
    ((classify false tx_pid pkt).accepted = true ↔
      (pkt.rx_header_valid = true ∧ pkt.rx_header.getD 2 0 = PING_PACKET_ACK ∧
        pkt.rx_payload_valid = true ∧ seqId pkt.rx_header = tx_pid)) ∧
    ((classify false tx_pid pkt).events = [Event.sym '.'] ↔
      (classify false tx_pid pkt).accepted = true) := by
  obtain ⟨h, hv, len, pv⟩ := pkt
  simp only [classify]
  generalize h.getD 2 0 = t
  generalize seqId h = q
  by_cases ht : t = PING_PACKET_ACK <;> by_cases hs : q = tx_pid <;>
    cases hv <;> cases pv <;> simp [ht, hs]

/-! ## Master: the acknowledgement wait -/

theorem WaitFrame.refl (s : MasterState) : WaitFrame s s := by
  simp [WaitFrame]

theorem WaitFrame.trans {s t u : MasterState} (h1 : WaitFrame s t) (h2 : WaitFrame t u) :
    WaitFrame s u := by
  simp only [WaitFrame] at *
  obtain ⟨a1, a2, a3, a4, a5, a6, a7, a8, a9⟩ := h1
  obtain ⟨b1, b2, b3, b4, b5, b6, b7, b8, b9⟩ := h2
  refine ⟨?_, ?_, ?_, ?_, ?_, ?_, ?_, ?_, ?_⟩ <;> simp [*]

theorem pollOnce_frame (p : Params) (link : Nat → Option RxPacket) (s : MasterState) :
    WaitFrame s (pollOnce p link s) := by
  unfold pollOnce
  cases link s.polls <;> simp [WaitFrame]

theorem pollOnce_polls (p : Params) (link : Nat → Option RxPacket) (s : MasterState) :
    (pollOnce p link s).polls = s.polls + 1 := by
  unfold pollOnce
  cases link s.polls <;> simp

theorem pollOnce_timer (p : Params) (link : Nat → Option RxPacket) (s : MasterState) :
    (pollOnce p link s).timer = (s.timer + p.timespec) % U32 := by
  unfold pollOnce
  cases link s.polls <;> simp

theorem pollOnce_ack (p : Params) (link : Nat → Option RxPacket) (s : MasterState) :
    (pollOnce p link s).ack_received = (s.ack_received || accepts p s.tx_pid link s.polls) := by
  unfold pollOnce accepts
  cases link s.polls with
  | none => simp
  | some pkt => cases h : (classify p.verbose s.tx_pid pkt).accepted <;> simp [h]

theorem ackWait_done_of_cond {p : Params} {link : Nat → Option RxPacket} {s : MasterState}
    (fuel : Nat) (h : (!s.ack_received && decide (s.timer < p.ack_timeout)) = false) :
    ackWait p link fuel s = .done s := by
  unfold ackWait
  simp [h]

theorem ackWait_step {p : Params} {link : Nat → Option RxPacket} {s : MasterState}
    (fuel : Nat) (h : (!s.ack_received && decide (s.timer < p.ack_timeout)) = true) :
    ackWait p link (fuel + 1) s = ackWait p link fuel (pollOnce p link s) := by
  rw [ackWait]
  simp [h]

/-- The wait changes nothing but the poll cursor, the clock, `rx_pid`, the
flag and the output, whether or not it finishes. -/
theorem ackWait_frame (p : Params) (link : Nat → Option RxPacket) (fuel : Nat) :
    ∀ s : MasterState, WaitFrame s (ackWait p link fuel s).state := by
  induction fuel with
  | zero =>
    intro s
    unfold ackWait
    split <;> simp [Run.state, WaitFrame.refl]
  | succ fuel ih =>
    intro s
    cases h : (!s.ack_received && decide (s.timer < p.ack_timeout)) with
    | false => rw [ackWait_done_of_cond _ h]; exact WaitFrame.refl s
    | true =>
      rw [ackWait_step _ h]
      exact (pollOnce_frame p link s).trans (ih _)

theorem ceil_mul_ge (T P : Nat) (hP : 0 < P) : T ≤ (T + P - 1) / P * P := by
  have h1 := Nat.div_add_mod (T + P - 1) P
  have h2 := Nat.mod_lt (T + P - 1) hP
  have h3 : P * ((T + P - 1) / P) = (T + P - 1) / P * P := Nat.mul_comm _ _
  omega

theorem lt_ceil_mul_lt (T P k : Nat) (hP : 0 < P) (hk : k < (T + P - 1) / P) : k * P < T := by
  have h1 := Nat.div_add_mod (T + P - 1) P
  have h3 : P * ((T + P - 1) / P) = (T + P - 1) / P * P := Nat.mul_comm _ _
  have h4 : (k + 1) * P ≤ (T + P - 1) / P * P := Nat.mul_le_mul_right P hk
  have h5 : (k + 1) * P = k * P + P := by ring
  omega

theorem wait_cond_true {p : Params} {s : MasterState} {k : Nat} (hc : p.clockOk)
    (hk : k < pollsPerAttempt p) (ht : s.timer = k * p.timespec) (ha : s.ack_received = false) :
    (!s.ack_received && decide (s.timer < p.ack_timeout)) = true := by
  have := lt_ceil_mul_lt p.ack_timeout p.timespec k hc.1 hk
  simp [ha, ht, this]

theorem pollOnce_timer_next {p : Params} {link : Nat → Option RxPacket} {s : MasterState} {k : Nat}
    (hc : p.clockOk) (hk : k < pollsPerAttempt p) (ht : s.timer = k * p.timespec) :
    (pollOnce p link s).timer = (k + 1) * p.timespec := by
  have h1 := lt_ceil_mul_lt p.ack_timeout p.timespec k hc.1 hk
  have h2 := hc.2
  have h3 : (k + 1) * p.timespec = k * p.timespec + p.timespec := by ring
  rw [pollOnce_timer, ht, h3]
  apply Nat.mod_eq_of_lt
  omega

/-- An attempt during which nothing is accepted ends after `ceil(T/P)` polls
with the flag still clear. -/
theorem ackWait_timeout (p : Params) (link : Nat → Option RxPacket) (hc : p.clockOk) :
    ∀ (d k : Nat) (s : MasterState) (fuel : Nat),
      pollsPerAttempt p = k + d → s.timer = k * p.timespec → s.ack_received = false →
      (∀ i, i < d → accepts p s.tx_pid link (s.polls + i) = false) → d ≤ fuel →
      ∃ t, ackWait p link fuel s = .done t ∧ WaitFrame s t ∧ t.polls = s.polls + d ∧
        t.ack_received = false := by
  intro d
  induction d with
  | zero =>
    intro k s fuel hn ht ha _ _
    have hge := ceil_mul_ge p.ack_timeout p.timespec hc.1
    have hk : k = pollsPerAttempt p := by omega
    have hcond : (!s.ack_received && decide (s.timer < p.ack_timeout)) = false := by
      have : ¬ s.timer < p.ack_timeout := by
        rw [ht, hk]; unfold pollsPerAttempt; omega
      simp [this]
    exact ⟨s, ackWait_done_of_cond _ hcond, WaitFrame.refl s, rfl, ha⟩
  | succ d ih =>
    intro k s fuel hn ht ha hno hf
    have hk : k < pollsPerAttempt p := by omega
    obtain ⟨fuel, rfl⟩ : ∃ f, fuel = f + 1 := ⟨fuel - 1, by omega⟩
    rw [ackWait_step _ (wait_cond_true hc hk ht ha)]
    have hfr := pollOnce_frame p link s
    have h0 := hno 0 (by omega)
    have hack : (pollOnce p link s).ack_received = false := by
      rw [pollOnce_ack, ha]; simpa using h0
    obtain ⟨t, h1, h2, h3, h4⟩ := ih (k + 1) (pollOnce p link s) fuel (by omega)
      (pollOnce_timer_next hc hk ht) hack
      (by
        intro i hi
        rw [hfr.1, pollOnce_polls]
        have := hno (i + 1) (by omega)
        rwa [show s.polls + 1 + i = s.polls + (i + 1) by omega])
      (by omega)
    refine ⟨t, h1, hfr.trans h2, ?_, h4⟩
    rw [h3, pollOnce_polls]; omega

/-- An attempt in which the first accepted packet comes at poll `i` (counted
from 0 within the attempt) ends right after that poll with the flag set. -/
theorem ackWait_accept (p : Params) (link : Nat → Option RxPacket) (hc : p.clockOk) :
    ∀ (i k : Nat) (s : MasterState) (fuel : Nat),
      k + i < pollsPerAttempt p → s.timer = k * p.timespec → s.ack_received = false →
      (∀ j, j < i → accepts p s.tx_pid link (s.polls + j) = false) →
      accepts p s.tx_pid link (s.polls + i) = true → i + 1 ≤ fuel →
      ∃ t, ackWait p link fuel s = .done t ∧ WaitFrame s t ∧ t.polls = s.polls + i + 1 ∧
        t.ack_received = true := by
  intro i
  induction i with
  | zero =>
    intro k s fuel hk ht ha _ hyes hf
    obtain ⟨fuel, rfl⟩ : ∃ f, fuel = f + 1 := ⟨fuel - 1, by omega⟩
    rw [ackWait_step _ (wait_cond_true hc (by omega) ht ha)]
    have hack : (pollOnce p link s).ack_received = true := by
      rw [pollOnce_ack, ha]; simpa using hyes
    refine ⟨pollOnce p link s, ackWait_done_of_cond _ (by simp [hack]), pollOnce_frame p link s,
      ?_, hack⟩
    rw [pollOnce_polls]
  | succ i ih =>
    intro k s fuel hk ht ha hno hyes hf
    obtain ⟨fuel, rfl⟩ : ∃ f, fuel = f + 1 := ⟨fuel - 1, by omega⟩
    rw [ackWait_step _ (wait_cond_true hc (by omega) ht ha)]
    have hfr := pollOnce_frame p link s
    have h0 := hno 0 (by omega)
    have hack : (pollOnce p link s).ack_received = false := by
      rw [pollOnce_ack, ha]; simpa using h0
    obtain ⟨t, h1, h2, h3, h4⟩ := ih (k + 1) (pollOnce p link s) fuel (by omega)
      (pollOnce_timer_next hc (by omega) ht) hack
      (by
        intro j hj
        rw [hfr.1, pollOnce_polls]
        have := hno (j + 1) (by omega)
        rwa [show s.polls + 1 + j = s.polls + (j + 1) by omega])
      (by
        rw [hfr.1, pollOnce_polls]
        rwa [show s.polls + 1 + i = s.polls + (i + 1) by omega])
      (by omega)
    refine ⟨t, h1, hfr.trans h2, ?_, h4⟩
    rw [h3, pollOnce_polls]; omega

/-! ## Master: the attempt loop -/

theorem transmit_frame (p : Params) (s : MasterState) :
    (transmit p s).tx_pid = s.tx_pid ∧ (transmit p s).tx_header = s.tx_header ∧
    (transmit p s).tx_payload = s.tx_payload ∧
    (transmit p s).num_bytes_received = s.num_bytes_received ∧
    (transmit p s).rcalls = s.rcalls ∧ (transmit p s).polls = s.polls ∧
    (transmit p s).acked = s.acked ∧ (transmit p s).bailed = s.bailed := by
  simp [transmit]

theorem transmit_effect (p : Params) (s : MasterState) :
    (transmit p s).num_attempts = (s.num_attempts + 1) % U32 ∧
    (transmit p s).sent = s.sent ++ [s.tx_pid] ∧
    (transmit p s).timer = 0 ∧ (transmit p s).ack_received = false := by
  simp [transmit]

theorem noteTimeout_frame (p : Params) (s : MasterState) :
    WaitFrame s (noteTimeout p s) ∧ (noteTimeout p s).polls = s.polls ∧
    (noteTimeout p s).ack_received = s.ack_received := by
  unfold noteTimeout
  cases p.verbose <;> simp [WaitFrame]

theorem attemptLoop_succ (p : Params) (link : Nat → Option RxPacket) (fuel : Nat)
    (s : MasterState) :
    attemptLoop p link (fuel + 1) s =
      match ackWait p link fuel (transmit p s) with
      | .fuelOut s1 => .fuelOut s1
      | .done s1 =>
        if s1.ack_received then .done (creditAck p s1)
        else
          if !(noteTimeout p s1).ack_received &&
              decide ((noteTimeout p s1).num_attempts < p.max_num_attempts) then
            attemptLoop p link fuel (noteTimeout p s1)
          else .done (noteTimeout p s1) := by
  rw [attemptLoop]

/-- With no packet accepted from the current poll on, the loop transmits once
per remaining attempt and ends with the flag clear at `num_attempts = A`. -/
theorem attemptLoop_timeout (p : Params) (link : Nat → Option RxPacket) (hc : p.clockOk)
    (hA : p.max_num_attempts < U32) :
    ∀ (m : Nat) (s : MasterState) (fuel : Nat),
      s.num_attempts + (m + 1) = p.max_num_attempts →
      (∀ j, s.polls ≤ j → accepts p s.tx_pid link j = false) →
      pollsPerAttempt p + (m + 1) ≤ fuel →
      ∃ t, attemptLoop p link fuel s = .done t ∧ t.num_attempts = p.max_num_attempts ∧
        t.ack_received = false ∧ t.sent = s.sent ++ List.replicate (m + 1) s.tx_pid ∧
        t.tx_pid = s.tx_pid ∧ t.num_bytes_received = s.num_bytes_received ∧
        t.acked = s.acked ∧ t.bailed = s.bailed ∧
        t.polls = s.polls + (m + 1) * pollsPerAttempt p := by
  intro m
  induction m with
  | zero =>
    intro s fuel hm hno hf
    obtain ⟨fuel, rfl⟩ : ∃ f, fuel = f + 1 := ⟨fuel - 1, by omega⟩
    obtain ⟨e1, e2, e3, e4⟩ := transmit_effect p s
    obtain ⟨f1, f2, f3, f4, f5, f6, f7, f8⟩ := transmit_frame p s
    obtain ⟨t1, h1, h2, h3, h4⟩ := ackWait_timeout p link hc (pollsPerAttempt p) 0
      (transmit p s) fuel (by omega) (by rw [e3]; simp) e4
      (by intro i _; rw [f1, f6]; exact hno _ (by omega)) (by omega)
    obtain ⟨g1, g2, g3⟩ := noteTimeout_frame p t1
    have hn : (noteTimeout p t1).num_attempts = p.max_num_attempts := by
      rw [g1.2.2.2.1, h2.2.2.2.1, e1, Nat.mod_eq_of_lt (by omega)]; omega
    rw [attemptLoop_succ, h1]
    simp only [h4, g3, hn]
    refine ⟨noteTimeout p t1, by simp, hn, by rw [g3, h4], ?_, ?_, ?_, ?_, ?_, ?_⟩
    · rw [g1.2.2.2.2.2.2.1, h2.2.2.2.2.2.2.1, e2]; rfl
    · rw [g1.1, h2.1, f1]
    · rw [g1.2.2.2.2.1, h2.2.2.2.2.1, f4]
    · rw [g1.2.2.2.2.2.2.2.1, h2.2.2.2.2.2.2.2.1, f7]
    · rw [g1.2.2.2.2.2.2.2.2, h2.2.2.2.2.2.2.2.2, f8]
    · rw [g2, h3, f6]; omega
  | succ m ih =>
    intro s fuel hm hno hf
    obtain ⟨fuel, rfl⟩ : ∃ f, fuel = f + 1 := ⟨fuel - 1, by omega⟩
    obtain ⟨e1, e2, e3, e4⟩ := transmit_effect p s
    obtain ⟨f1, f2, f3, f4, f5, f6, f7, f8⟩ := transmit_frame p s
    obtain ⟨t1, h1, h2, h3, h4⟩ := ackWait_timeout p link hc (pollsPerAttempt p) 0
      (transmit p s) fuel (by omega) (by rw [e3]; simp) e4
      (by intro i _; rw [f1, f6]; exact hno _ (by omega)) (by omega)
    obtain ⟨g1, g2, g3⟩ := noteTimeout_frame p t1
    have hn : (noteTimeout p t1).num_attempts = s.num_attempts + 1 := by
      rw [g1.2.2.2.1, h2.2.2.2.1, e1, Nat.mod_eq_of_lt (by omega)]
    have hpid : (noteTimeout p t1).tx_pid = s.tx_pid := by rw [g1.1, h2.1, f1]
    have hpolls : (noteTimeout p t1).polls = s.polls + pollsPerAttempt p := by
      rw [g2, h3, f6]
    obtain ⟨t, k1, k2, k3, k4, k5, k6, k7, k8, k9⟩ := ih (noteTimeout p t1) fuel
      (by rw [hn]; omega)
      (by intro j hj; rw [hpid]; exact hno j (by omega))
      (by omega)
    have hlt : s.num_attempts + 1 < p.max_num_attempts := by omega
    rw [attemptLoop_succ, h1]
    simp only [h4, g3, hn, hlt]
    refine ⟨t, by simpa using k1, k2, k3, ?_, ?_, ?_, ?_, ?_, ?_⟩
    · rw [k4, hpid, g1.2.2.2.2.2.2.1, h2.2.2.2.2.2.2.1, e2, List.append_assoc]
      rfl
    · rw [k5, hpid]
    · rw [k6, g1.2.2.2.2.1, h2.2.2.2.2.1, f4]
    · rw [k7, g1.2.2.2.2.2.2.2.1, h2.2.2.2.2.2.2.2.1, f7]
    · rw [k8, g1.2.2.2.2.2.2.2.2, h2.2.2.2.2.2.2.2.2, f8]
    · rw [k9, hpolls]; ring

theorem creditAck_effect (p : Params) (s : MasterState) :
    (creditAck p s).num_bytes_received = (s.num_bytes_received + p.tx_payload_len) % U64 ∧
    (creditAck p s).acked = s.acked ++ [s.tx_pid] ∧
    (creditAck p s).tx_pid = s.tx_pid ∧ (creditAck p s).num_attempts = s.num_attempts ∧
    (creditAck p s).sent = s.sent ∧ (creditAck p s).bailed = s.bailed ∧
    (creditAck p s).polls = s.polls ∧ (creditAck p s).ack_received = s.ack_received ∧
    (creditAck p s).rcalls = s.rcalls ∧ (creditAck p s).tx_header = s.tx_header ∧
    (creditAck p s).tx_payload = s.tx_payload := by
  simp [creditAck]

/-- When the first accepted packet comes at poll `i` of attempt `k + 1`
(polls and attempts counted from the state the loop starts in), the loop ends
accepted after `k + 1` transmissions and credits the payload once. -/
theorem attemptLoop_accept (p : Params) (link : Nat → Option RxPacket) (hc : p.clockOk)
    (hA : p.max_num_attempts < U32) (i : Nat) (hi : i < pollsPerAttempt p) :
    ∀ (k : Nat) (s : MasterState) (fuel : Nat),
      s.num_attempts + (k + 1) ≤ p.max_num_attempts →
      (∀ j, j < k * pollsPerAttempt p + i → accepts p s.tx_pid link (s.polls + j) = false) →
      accepts p s.tx_pid link (s.polls + (k * pollsPerAttempt p + i)) = true →
      pollsPerAttempt p + (k + 1) ≤ fuel →
      ∃ t, attemptLoop p link fuel s = .done t ∧ t.ack_received = true ∧
        t.num_attempts = s.num_attempts + (k + 1) ∧
        t.sent = s.sent ++ List.replicate (k + 1) s.tx_pid ∧
        t.tx_pid = s.tx_pid ∧
        t.num_bytes_received = (s.num_bytes_received + p.tx_payload_len) % U64 ∧
        t.acked = s.acked ++ [s.tx_pid] ∧ t.bailed = s.bailed ∧
        t.polls = s.polls + (k * pollsPerAttempt p + i) + 1 := by
  intro k
  induction k with
  | zero =>
    intro s fuel hm hno hyes hf
    obtain ⟨fuel, rfl⟩ : ∃ f, fuel = f + 1 := ⟨fuel - 1, by omega⟩
    obtain ⟨e1, e2, e3, e4⟩ := transmit_effect p s
    obtain ⟨f1, f2, f3, f4, f5, f6, f7, f8⟩ := transmit_frame p s
    simp only [Nat.zero_mul, Nat.zero_add] at hno hyes ⊢
    obtain ⟨t1, h1, h2, h3, h4⟩ := ackWait_accept p link hc i 0
      (transmit p s) fuel (by omega) (by rw [e3]; simp) e4
      (by intro j hj; rw [f1, f6]; exact hno j hj)
      (by rw [f1, f6]; exact hyes) (by omega)
    obtain ⟨c1, c2, c3, c4, c5, c6, c7, c8, _, _, _⟩ := creditAck_effect p t1
    rw [attemptLoop_succ, h1]
    simp only [h4]
    refine ⟨creditAck p t1, by simp, by rw [c8, h4], ?_, ?_, ?_, ?_, ?_, ?_, ?_⟩
    · rw [c4, h2.2.2.2.1, e1, Nat.mod_eq_of_lt (by omega)]
    · rw [c5, h2.2.2.2.2.2.2.1, e2]; rfl
    · rw [c3, h2.1, f1]
    · rw [c1, h2.2.2.2.2.1, f4]
    · rw [c2, h2.2.2.2.2.2.2.2.1, f7, h2.1, f1]
    · rw [c6, h2.2.2.2.2.2.2.2.2, f8]
    · rw [c7, h3, f6]
  | succ k ih =>
    intro s fuel hm hno hyes hf
    obtain ⟨fuel, rfl⟩ : ∃ f, fuel = f + 1 := ⟨fuel - 1, by omega⟩
    obtain ⟨e1, e2, e3, e4⟩ := transmit_effect p s
    obtain ⟨f1, f2, f3, f4, f5, f6, f7, f8⟩ := transmit_frame p s
    have hmul : (k + 1) * pollsPerAttempt p = k * pollsPerAttempt p + pollsPerAttempt p :=
      Nat.succ_mul _ _
    obtain ⟨t1, h1, h2, h3, h4⟩ := ackWait_timeout p link hc (pollsPerAttempt p) 0
      (transmit p s) fuel (by omega) (by rw [e3]; simp) e4
      (by intro j hj; rw [f1, f6]; exact hno j (by omega)) (by omega)
    obtain ⟨g1, g2, g3⟩ := noteTimeout_frame p t1
    have hn : (noteTimeout p t1).num_attempts = s.num_attempts + 1 := by
      rw [g1.2.2.2.1, h2.2.2.2.1, e1, Nat.mod_eq_of_lt (by omega)]
    have hpid : (noteTimeout p t1).tx_pid = s.tx_pid := by rw [g1.1, h2.1, f1]
    have hpolls : (noteTimeout p t1).polls = s.polls + pollsPerAttempt p := by
      rw [g2, h3, f6]
    obtain ⟨t, k1, k2, k3, k4, k5, k6, k7, k8, k9⟩ := ih (noteTimeout p t1) fuel
      (by rw [hn]; omega)
      (by
        intro j hj
        rw [hpid, hpolls]
        have := hno (pollsPerAttempt p + j) (by omega)
        rwa [← Nat.add_assoc] at this)
      (by
        rw [hpid, hpolls]
        rwa [show s.polls + pollsPerAttempt p + (k * pollsPerAttempt p + i) =
          s.polls + ((k + 1) * pollsPerAttempt p + i) by omega])
      (by omega)
    have hlt : s.num_attempts + 1 < p.max_num_attempts := by omega
    rw [attemptLoop_succ, h1]
    simp only [h4, g3, hn, hlt]
    refine ⟨t, by simpa using k1, k2, ?_, ?_, ?_, ?_, ?_, ?_, ?_⟩
    · rw [k3, hn]; omega
    · rw [k4, hpid, g1.2.2.2.2.2.2.1, h2.2.2.2.2.2.2.1, e2, List.append_assoc]
      rfl
    · rw [k5, hpid]
    · rw [k6, g1.2.2.2.2.1, h2.2.2.2.2.1, f4]
    · rw [k7, hpid, g1.2.2.2.2.2.2.2.1, h2.2.2.2.2.2.2.2.1, f7]
    · rw [k8, g1.2.2.2.2.2.2.2.2, h2.2.2.2.2.2.2.2.2, f8]
    · rw [k9, hpolls]; omega

/-- Whatever the link does and however much fuel there is, the loop started
below the ceiling transmits only the pending identifier, at most up to the
ceiling; when it ends, it either credited one acknowledgement or reached the
ceiling without one. -/
theorem attemptLoop_safe (p : Params) (link : Nat → Option RxPacket)
    (hA : p.max_num_attempts < U32) :
    ∀ (fuel : Nat) (s : MasterState), s.num_attempts < p.max_num_attempts →
      (attemptLoop p link fuel s).state.tx_pid = s.tx_pid ∧
      (attemptLoop p link fuel s).state.bailed = s.bailed ∧
      ∃ m, (attemptLoop p link fuel s).state.sent = s.sent ++ List.replicate m s.tx_pid ∧
        s.num_attempts + m ≤ p.max_num_attempts ∧
        ∀ t, attemptLoop p link fuel s = .done t →
          t.num_attempts = s.num_attempts + m ∧
          ((t.acked = s.acked ++ [s.tx_pid] ∧
              t.num_bytes_received = (s.num_bytes_received + p.tx_payload_len) % U64) ∨
           (t.num_attempts = p.max_num_attempts ∧ t.acked = s.acked ∧
              t.num_bytes_received = s.num_bytes_received)) := by
  intro fuel
  induction fuel with
  | zero =>
    intro s _
    refine ⟨rfl, rfl, 0, by simp [attemptLoop, Run.state], by omega, ?_⟩
    intro t ht
    simp [attemptLoop] at ht
  | succ fuel ih =>
    intro s hs
    obtain ⟨e1, e2, e3, e4⟩ := transmit_effect p s
    obtain ⟨f1, f2, f3, f4, f5, f6, f7, f8⟩ := transmit_frame p s
    have hfr := ackWait_frame p link fuel (transmit p s)
    have hn1 : (s.num_attempts + 1) % U32 = s.num_attempts + 1 := Nat.mod_eq_of_lt (by omega)
    rw [attemptLoop_succ]
    cases hw : ackWait p link fuel (transmit p s) with
    | fuelOut t1 =>
      rw [hw] at hfr
      simp only [Run.state] at hfr ⊢
      refine ⟨by rw [hfr.1, f1], by rw [hfr.2.2.2.2.2.2.2.2, f8], 1, ?_, by omega, ?_⟩
      · rw [hfr.2.2.2.2.2.2.1, e2]; rfl
      · intro t ht; simp at ht
    | done t1 =>
      rw [hw] at hfr
      simp only [Run.state] at hfr
      cases hack : t1.ack_received with
      | true =>
        obtain ⟨c1, c2, c3, c4, c5, c6, c7, c8, _, _, _⟩ := creditAck_effect p t1
        simp only [hack, if_true, Run.state]
        refine ⟨by rw [c3, hfr.1, f1], by rw [c6, hfr.2.2.2.2.2.2.2.2, f8], 1, ?_, by omega, ?_⟩
        · rw [c5, hfr.2.2.2.2.2.2.1, e2]; rfl
        · intro t ht
          simp only [Run.done.injEq] at ht
          subst ht
          refine ⟨by rw [c4, hfr.2.2.2.1, e1, hn1], Or.inl ⟨?_, ?_⟩⟩
          · rw [c2, hfr.2.2.2.2.2.2.2.1, f7, hfr.1, f1]
          · rw [c1, hfr.2.2.2.2.1, f4]
      | false =>
        obtain ⟨g1, g2, g3⟩ := noteTimeout_frame p t1
        have hn : (noteTimeout p t1).num_attempts = s.num_attempts + 1 := by
          rw [g1.2.2.2.1, hfr.2.2.2.1, e1, hn1]
        have hpid : (noteTimeout p t1).tx_pid = s.tx_pid := by rw [g1.1, hfr.1, f1]
        have hsent : (noteTimeout p t1).sent = s.sent ++ [s.tx_pid] := by
          rw [g1.2.2.2.2.2.2.1, hfr.2.2.2.2.2.2.1, e2]
        have hacked : (noteTimeout p t1).acked = s.acked := by
          rw [g1.2.2.2.2.2.2.2.1, hfr.2.2.2.2.2.2.2.1, f7]
        have hbytes : (noteTimeout p t1).num_bytes_received = s.num_bytes_received := by
          rw [g1.2.2.2.2.1, hfr.2.2.2.2.1, f4]
        have hbail : (noteTimeout p t1).bailed = s.bailed := by
          rw [g1.2.2.2.2.2.2.2.2, hfr.2.2.2.2.2.2.2.2, f8]
        simp only [Bool.false_eq_true, if_false, g3, hack, Bool.not_false, Bool.true_and, hn]
        by_cases hlt : s.num_attempts + 1 < p.max_num_attempts
        · simp only [hlt, decide_True, if_true]
          obtain ⟨i1, i2, m, i3, i4, i5⟩ := ih (noteTimeout p t1) (by rw [hn]; exact hlt)
          refine ⟨by rw [i1, hpid], by rw [i2, hbail], m + 1, ?_, by omega, ?_⟩
          · rw [i3, hsent, hpid, List.append_assoc]; rfl
          · intro t ht
            obtain ⟨j1, j2⟩ := i5 t ht
            refine ⟨by rw [j1, hn]; omega, ?_⟩
            rw [hpid, hacked, hbytes] at j2
            exact j2
        · simp only [hlt, decide_False, Bool.false_eq_true, if_false, Run.state]
          refine ⟨hpid, hbail, 1, by rw [hsent]; rfl, by omega, ?_⟩
          intro t ht
          simp only [Run.done.injEq] at ht
          subst ht
          exact ⟨hn, Or.inr ⟨by rw [hn]; omega, hacked, hbytes⟩⟩

/-! ## Master: the session loop -/

theorem txInit_frame (p : Params) (rand : Nat → Nat) (s : MasterState) :
    (txInit p rand s).tx_pid = s.tx_pid ∧ (txInit p rand s).num_attempts = 0 ∧
    (txInit p rand s).num_bytes_received = s.num_bytes_received ∧
    (txInit p rand s).polls = s.polls ∧ (txInit p rand s).sent = s.sent ∧
    (txInit p rand s).acked = s.acked ∧ (txInit p rand s).bailed = s.bailed := by
  simp [txInit]

theorem sessionLoop_succ (p : Params) (link : Nat → Option RxPacket) (rand : Nat → Nat)
    (fuel : Nat) (s : MasterState) :
    sessionLoop p link rand (fuel + 1) s =
      if s.tx_pid < p.num_packets then
        match attemptLoop p link fuel (txInit p rand s) with
        | .fuelOut s1 => .fuelOut s1
        | .done s1 =>
          if s1.num_attempts == p.max_num_attempts then .done (bail s1)
          else sessionLoop p link rand fuel (nextPid s1)
      else .done s := by
  rw [sessionLoop]

/-- Safety of the session loop: no identifier is ever transmitted more than
`A` times, for any link and any amount of fuel. -/
theorem sessionLoop_sent_le (p : Params) (link : Nat → Option RxPacket) (rand : Nat → Nat)
    (hN : p.num_packets < U32) (hA : p.max_num_attempts < U32) (hA1 : 1 ≤ p.max_num_attempts) :
    ∀ (fuel : Nat) (s : MasterState),
      (∀ id, s.sent.count id ≤ p.max_num_attempts) →
      (∀ id, s.tx_pid ≤ id → s.sent.count id = 0) →
      ∀ id, (sessionLoop p link rand fuel s).state.sent.count id ≤ p.max_num_attempts := by
  intro fuel
  induction fuel with
  | zero => intro s h1 _ id; simpa [sessionLoop, Run.state] using h1 id
  | succ fuel ih =>
    intro s h1 h2 id
    rw [sessionLoop_succ]
    by_cases hlt : s.tx_pid < p.num_packets
    · simp only [hlt, if_true]
      obtain ⟨f1, f2, f3, f4, f5, f6, f7⟩ := txInit_frame p rand s
      obtain ⟨a1, a2, m, a3, a4, a5⟩ := attemptLoop_safe p link hA fuel (txInit p rand s)
        (by rw [f2]; omega)
      rw [f1, f5] at a3
      rw [f2] at a4
      rw [f1] at a1
      have hcount : ∀ id, (attemptLoop p link fuel (txInit p rand s)).state.sent.count id
          ≤ p.max_num_attempts := by
        intro id
        rw [a3, List.count_append, List.count_replicate]
        by_cases hid : s.tx_pid = id
        · have := h2 id (by omega)
          simp [hid] at this ⊢
          omega
        · have := h1 id
          simp [hid]
          omega
      have hzero : ∀ id, s.tx_pid + 1 ≤ id →
          (attemptLoop p link fuel (txInit p rand s)).state.sent.count id = 0 := by
        intro id hid
        rw [a3, List.count_append, List.count_replicate]
        have := h2 id (by omega)
        have hne : ¬ s.tx_pid = id := by omega
        simp [hne, this]
      cases hr : attemptLoop p link fuel (txInit p rand s) with
      | fuelOut t1 =>
        rw [hr] at hcount
        simpa [Run.state] using hcount id
      | done t1 =>
        rw [hr] at hcount hzero a1
        simp only [Run.state] at hcount hzero a1
        by_cases hb : (t1.num_attempts == p.max_num_attempts) = true
        · simp only [hb, if_true, Run.state]
          simpa [bail] using hcount id
        · simp only [hb, Bool.false_eq_true, if_false]
          apply ih (nextPid t1)
          · intro id; simpa [nextPid] using hcount id
          · intro id hid
            have hmod : (s.tx_pid + 1) % U32 = s.tx_pid + 1 := Nat.mod_eq_of_lt (by omega)
            simp only [nextPid, a1, hmod] at hid
            simpa [nextPid] using hzero id hid
    · simp only [hlt, if_false, Run.state]
      exact h1 id

/-- A session loop that ends without the bail branch has credited every
identifier from the current one up to `N - 1`, once each and in order. -/
theorem sessionLoop_complete (p : Params) (link : Nat → Option RxPacket) (rand : Nat → Nat)
    (hN : p.num_packets < U32) (hA : p.max_num_attempts < U32) (hA1 : 1 ≤ p.max_num_attempts) :
    ∀ (fuel : Nat) (s t : MasterState),
      sessionLoop p link rand fuel s = .done t → t.bailed = false →
      s.tx_pid ≤ p.num_packets → s.num_bytes_received < U64 →
      t.acked = s.acked ++ List.range' s.tx_pid (p.num_packets - s.tx_pid) ∧
      t.num_bytes_received =
        (s.num_bytes_received + (p.num_packets - s.tx_pid) * p.tx_payload_len) % U64 := by
  intro fuel
  induction fuel with
  | zero => intro s t h; simp [sessionLoop] at h
  | succ fuel ih =>
    intro s t h hb hle hbytes
    rw [sessionLoop_succ] at h
    by_cases hlt : s.tx_pid < p.num_packets
    · simp only [hlt, if_true] at h
      obtain ⟨f1, f2, f3, f4, f5, f6, f7⟩ := txInit_frame p rand s
      obtain ⟨a1, a2, m, a3, a4, a5⟩ := attemptLoop_safe p link hA fuel (txInit p rand s)
        (by rw [f2]; omega)
      cases hr : attemptLoop p link fuel (txInit p rand s) with
      | fuelOut t1 => rw [hr] at h; simp at h
      | done t1 =>
        rw [hr] at h a1
        simp only [Run.state] at a1
        rw [f1] at a1
        by_cases hbl : (t1.num_attempts == p.max_num_attempts) = true
        · simp only [hbl, if_true, Run.done.injEq] at h
          subst h
          simp [bail] at hb
        · simp only [hbl, Bool.false_eq_true, if_false] at h
          have hne : t1.num_attempts ≠ p.max_num_attempts := by simpa using hbl
          obtain ⟨_, j2⟩ := a5 t1 hr
          rw [f1, f6, f3] at j2
          obtain ⟨j3, j4⟩ : t1.acked = s.acked ++ [s.tx_pid] ∧
              t1.num_bytes_received = (s.num_bytes_received + p.tx_payload_len) % U64 := by
            rcases j2 with j2 | j2
            · exact j2
            · exact absurd j2.1 hne
          have hmod : (s.tx_pid + 1) % U32 = s.tx_pid + 1 := Nat.mod_eq_of_lt (by omega)
          have hpid : (nextPid t1).tx_pid = s.tx_pid + 1 := by simp [nextPid, a1, hmod]
          obtain ⟨k1, k2⟩ := ih (nextPid t1) t h hb (by rw [hpid]; omega)
            (by
              have : (nextPid t1).num_bytes_received = t1.num_bytes_received := by simp [nextPid]
              rw [this, j4]
              exact Nat.mod_lt _ (by decide))
          have e1 : (nextPid t1).acked = t1.acked := by simp [nextPid]
          have e2 : (nextPid t1).num_bytes_received = t1.num_bytes_received := by simp [nextPid]
          obtain ⟨d, hd⟩ : ∃ d, p.num_packets - s.tx_pid = d + 1 :=
            ⟨p.num_packets - s.tx_pid - 1, by omega⟩
          have hd2 : p.num_packets - (s.tx_pid + 1) = d := by omega
          rw [hpid, e1, j3, hd2] at k1
          rw [hpid, e2, j4, hd2] at k2
          rw [hd]
          refine ⟨?_, ?_⟩
          · rw [k1, List.append_assoc]; rfl
          · rw [k2, Nat.mod_add_mod]
            congr 1
            ring
    · simp only [hlt, if_false, Run.done.injEq] at h
      subst h
      have : p.num_packets - s.tx_pid = 0 := by omega
      rw [this]
      simp [Nat.mod_eq_of_lt hbytes]

/-- When nothing is accepted from the current poll on, the session loop spends
all `A` attempts on the pending identifier and takes the bail branch. -/
theorem sessionLoop_abort (p : Params) (link : Nat → Option RxPacket) (rand : Nat → Nat)
    (hc : p.clockOk) (hA : p.max_num_attempts < U32) (hA1 : 1 ≤ p.max_num_attempts)
    (s : MasterState) (hid : s.tx_pid < p.num_packets)
    (hno : ∀ j, s.polls ≤ j → accepts p s.tx_pid link j = false)
    (fuel : Nat) (hf : pollsPerAttempt p + p.max_num_attempts + 1 ≤ fuel) :
    ∃ t, sessionLoop p link rand fuel s = .done t ∧ t.bailed = true ∧ t.tx_pid = s.tx_pid ∧
      t.sent = s.sent ++ List.replicate p.max_num_attempts s.tx_pid ∧
      t.num_bytes_received = s.num_bytes_received ∧ t.acked = s.acked := by
  obtain ⟨fuel, rfl⟩ : ∃ f, fuel = f + 1 := ⟨fuel - 1, by omega⟩
  obtain ⟨f1, f2, f3, f4, f5, f6, f7⟩ := txInit_frame p rand s
  obtain ⟨m, hm⟩ : ∃ m, p.max_num_attempts = m + 1 := ⟨p.max_num_attempts - 1, by omega⟩
  obtain ⟨t1, h1, h2, h3, h4, h5, h6, h7, h8, h9⟩ := attemptLoop_timeout p link hc hA m
    (txInit p rand s) fuel (by rw [f2]; omega)
    (by intro j hj; rw [f1]; exact hno j (by omega)) (by omega)
  rw [sessionLoop_succ]
  simp only [hid, if_true, h1, h2, beq_self_eq_true]
  refine ⟨bail t1, rfl, by simp [bail], ?_, ?_, ?_, ?_⟩
  · simp [bail, h5, f1]
  · simp [bail, h4, f1, f5, hm]
  · simp [bail, h6, f3]
  · simp [bail, h7, f6]

/-! ## Master: the claims -/

/-- C2 fails at `A = 0`: with `N = 2` and a silent link each identifier is
transmitted once (not zero times), the bail branch is not taken and
identifier 1 is transmitted after identifier 0. -/
theorem no_ack_zero_ceiling_counterexample :
    (∀ j, accepts (sourceCfg 2 0) 0 silentLink j = false) ∧
    ∃ t, master (sourceCfg 2 0) silentLink zeroRand 110 = .done t ∧
      t.sent = [0, 1] ∧ t.bailed = false := by
  refine ⟨fun _ => rfl, (master (sourceCfg 2 0) silentLink zeroRand 110).state, ?_, ?_, ?_⟩
  · rfl
  · decide
  · decide

/-- C3 (what the code does): when the acknowledgement for the pending
identifier is accepted on the last permitted attempt `A`, the payload is
credited and the session loop nevertheless takes the bail branch: `tx_pid` is
not advanced and no later identifier is transmitted. -/
theorem ack_on_last_attempt_bails (p : Params) (link : Nat → Option RxPacket)
    (rand : Nat → Nat) (s : MasterState) (hwf : p.wf) (hc : p.clockOk)
    (hA1 : 1 ≤ p.max_num_attempts) (hid : s.tx_pid < p.num_packets)
    (i : Nat) (hi : i < pollsPerAttempt p)
    (hno : ∀ j, j < (p.max_num_attempts - 1) * pollsPerAttempt p + i →
      accepts p s.tx_pid link (s.polls + j) = false)
    (hyes : accepts p s.tx_pid link
      (s.polls + ((p.max_num_attempts - 1) * pollsPerAttempt p + i)) = true)
    (fuel : Nat) (hf : pollsPerAttempt p + p.max_num_attempts + 1 ≤ fuel) :
    ∃ t, sessionLoop p link rand fuel s = .done t ∧ t.acked = s.acked ++ [s.tx_pid] ∧
      t.bailed = true ∧ t.tx_pid = s.tx_pid ∧
      t.sent = s.sent ++ List.replicate p.max_num_attempts s.tx_pid := by
  obtain ⟨fuel, rfl⟩ : ∃ f, fuel = f + 1 := ⟨fuel - 1, by omega⟩
  obtain ⟨f1, f2, f3, f4, f5, f6, f7⟩ := txInit_frame p rand s
  obtain ⟨m, hm⟩ : ∃ m, p.max_num_attempts = m + 1 := ⟨p.max_num_attempts - 1, by omega⟩
  have hm1 : p.max_num_attempts - 1 = m := by omega
  rw [hm1] at hno hyes
  obtain ⟨t1, h1, h2, h3, h4, h5, h6, h7, h8, h9⟩ := attemptLoop_accept p link hc hwf.2.1 i hi m
    (txInit p rand s) fuel (by rw [f2]; omega)
    (by intro j hj; rw [f1, f4]; exact hno j hj)
    (by rw [f1, f4]; exact hyes) (by omega)
  have hnum : (t1.num_attempts == p.max_num_attempts) = true := by
    rw [h3, f2, hm]; simp
  rw [sessionLoop_succ]
  simp only [hid, if_true, h1, hnum]
  refine ⟨bail t1, rfl, ?_, by simp [bail], ?_, ?_⟩
  · simp [bail, h7, f6, f1]
  · simp [bail, h5, f1]
  · simp [bail, h4, f1, f5, hm]

/-- C3 at a concrete input: `N = 2`, `A = 1`, the source's timeout constants,
and the valid ACK for identifier 0 returned by the first receive call.  The
acknowledgement is credited, yet the session bails and identifier 1 is never
transmitted. -/
theorem ack_on_last_attempt_bails_witness :
    ∃ t, master (sourceCfg 2 1) (ackAt 0 0) zeroRand 102 = .done t ∧
      t.acked = [0] ∧ t.bailed = true ∧ t.tx_pid = 0 ∧ t.sent = [0] :=
  ack_on_last_attempt_bails (sourceCfg 2 1) (ackAt 0 0) zeroRand MasterState.init (by decide) (by decide) (by decide) (by decide)
    0 (by decide) (fun j hj => absurd hj (Nat.not_lt_zero j)) (by decide) 102 (by decide)

/-- C5 (as amended, `1 ≤ A`): whatever the link delivers and however long the
session has run, no sequence identifier has been transmitted more than `A`
times; and the packet construction that opens each identifier sets the attempt
counter to 0. -/
theorem attempts_never_exceed_ceiling (p : Params) (link : Nat → Option RxPacket)
    (rand : Nat → Nat) (hwf : p.wf) (hA1 : 1 ≤ p.max_num_attempts) (fuel id : Nat) :
    (master p link rand fuel).state.sent.count id ≤ p.max_num_attempts ∧
    ∀ s : MasterState, (txInit p rand s).num_attempts = 0 := by
  refine ⟨?_, fun s => (txInit_frame p rand s).2.1⟩
  exact sessionLoop_sent_le p link rand hwf.1 hwf.2.1 hA1 fuel MasterState.init
    (fun _ => by simp [MasterState.init]) (fun _ _ => by simp [MasterState.init]) id

/-- C5 at `N = 2`, `A = 2` with the only ACK, for identifier 1, arriving too
early: identifier 0 is transmitted at most twice. -/
theorem attempts_never_exceed_ceiling_witness :
    (sourceCfg 2 2).wf ∧
    ((master (sourceCfg 2 2) (ackAt 1 3) zeroRand 300).state.sent.count 0 ≤ 2 ∧
      ∀ s : MasterState, (txInit (sourceCfg 2 2) zeroRand s).num_attempts = 0) :=
  ⟨by decide,
    attempts_never_exceed_ceiling (sourceCfg 2 2) (ackAt 1 3) zeroRand (by decide) (by decide)
      300 0⟩

/-- C5 fails at `A = 0`: the `do` body runs once before the ceiling is tested,
so identifier 0 is transmitted once, which exceeds 0. -/
theorem attempts_zero_ceiling_counterexample :
    ¬ ((master (sourceCfg 1 0) silentLink zeroRand 110).state.sent.count 0
        ≤ (sourceCfg 1 0).max_num_attempts) := by
  decide

/-- C6 (as amended, `1 ≤ A`): if the master session ends without taking the
bail branch, an acknowledgement was credited for each identifier `0 .. N-1`,
once each and in order, and the byte counter equals `N * L`. -/
theorem complete_session_credits_all (p : Params) (link : Nat → Option RxPacket)
    (rand : Nat → Nat) (hwf : p.wf) (hA1 : 1 ≤ p.max_num_attempts) (fuel : Nat)
    (t : MasterState) (hdone : master p link rand fuel = .done t) (hb : t.bailed = false) :
    t.acked = List.range p.num_packets ∧
    t.num_bytes_received = p.num_packets * p.tx_payload_len := by
  obtain ⟨h1, h2⟩ := sessionLoop_complete p link rand hwf.1 hwf.2.1 hA1 fuel MasterState.init t
    hdone hb (by simp [MasterState.init]) (by simp [MasterState.init, U64])
  have hlt : p.num_packets * p.tx_payload_len < U64 := by
    have h3 : p.num_packets * p.tx_payload_len ≤ (U32 - 1) * (U32 - 1) :=
      Nat.mul_le_mul (by have := hwf.1; omega) (by have := hwf.2.2.1; omega)
    have h4 : (U32 - 1) * (U32 - 1) < U64 := by decide
    omega
  refine ⟨?_, ?_⟩
  · rw [h1]; simp [MasterState.init, List.range_eq_range']
  · rw [h2]; simp only [MasterState.init, Nat.sub_zero, Nat.zero_add]
    exact Nat.mod_eq_of_lt hlt

/-- C6 at `N = 2`, `A = 2` on a link that acknowledges at once: the session
ends without bailing, identifiers 0 and 1 are credited and 400 bytes counted. -/
theorem complete_session_credits_all_witness :
    (master (sourceCfg 2 2) promptLink zeroRand 8).finished = true ∧
    (master (sourceCfg 2 2) promptLink zeroRand 8).state.bailed = false ∧
    (master (sourceCfg 2 2) promptLink zeroRand 8).state.acked = [0, 1] ∧
    (master (sourceCfg 2 2) promptLink zeroRand 8).state.num_bytes_received = 400 :=
  ⟨by decide, by decide,
    complete_session_credits_all (sourceCfg 2 2) promptLink zeroRand (by decide) (by decide) 8
      (master (sourceCfg 2 2) promptLink zeroRand 8).state rfl (by decide)⟩

/-- C6 fails at `A = 0`: with `N = 1`, payload 200 and a silent link the
session ends without taking the bail branch although nothing was acknowledged
and the byte counter is 0, not `N * L = 200`. -/
theorem complete_zero_ceiling_counterexample :
    ∃ t, master (sourceCfg 1 0) silentLink zeroRand 110 = .done t ∧ t.bailed = false ∧
      t.acked = [] ∧
      t.num_bytes_received ≠ (sourceCfg 1 0).num_packets * (sourceCfg 1 0).tx_payload_len := by
  refine ⟨(master (sourceCfg 1 0) silentLink zeroRand 110).state, ?_, ?_, ?_, ?_⟩
  · rfl
  · decide
  · decide
  · decide

/-! ## Header coding lemmas -/

theorem and_0xff (x : Nat) : x &&& 0xff = x % 256 :=
  Nat.and_pow_two_sub_one_eq_mod x 8

theorem seqId_cons (a b : Nat) (rest : List Nat) (hb : b < 256) :
    seqId (a :: b :: rest) = a * 256 + b := by
  have h : 2 ^ 8 * a + b = 2 ^ 8 * a ||| b := Nat.mul_add_lt_is_or (i := 8) hb a
  simp only [seqId, List.getD_cons_zero, List.getD_cons_succ, Nat.shiftLeft_eq]
  rw [Nat.mul_comm a (2 ^ 8), ← h]

theorem seqId_dataHeader (rand : Nat → Nat) (r id : Nat) :
    seqId (dataHeader rand r id) = id % 65536 := by
  have h1 : (id >>> 8) &&& 0xff = id / 256 % 256 := by
    rw [and_0xff, Nat.shiftRight_eq_div_pow]
  have h2 : id &&& 0xff = id % 256 := and_0xff id
  simp only [dataHeader, List.cons_append, List.nil_append]
  rw [seqId_cons _ _ _ (by rw [h2]; exact Nat.mod_lt _ (by decide)), h1, h2]
  omega

theorem seqId_ackHeader (rand : Nat → Nat) (r : Nat) (h : List Nat)
    (hb : h.getD 1 0 < 256) : seqId (ackHeader rand r h) = seqId h := by
  have e : 2 ^ 8 * h.getD 0 0 + h.getD 1 0 = 2 ^ 8 * h.getD 0 0 ||| h.getD 1 0 :=
    Nat.mul_add_lt_is_or (i := 8) hb _
  simp only [ackHeader, List.cons_append, List.nil_append]
  rw [seqId_cons _ _ _ hb]
  simp only [seqId, Nat.shiftLeft_eq]
  rw [Nat.mul_comm (h.getD 0 0) (2 ^ 8), ← e]
  omega

/-! ## Slave: the claims -/

/-- The exit test after the body reads `rx_pid`, which the body sets from the
header of any packet with a valid header of type DATA (before the payload is
checked) and otherwise leaves at its previous value. -/
theorem slave_exit_test (p : Params) (rand : Nat → Nat) (s : SlaveState) (pkt : RxPacket) :
    (slaveBody p rand s pkt).rx_pid =
      if pkt.rx_header_valid = true ∧ pkt.rx_header.getD 2 0 = PING_PACKET_DATA
      then seqId pkt.rx_header else s.rx_pid := by
  obtain ⟨h, hv, len, pv⟩ := pkt
  simp only [slaveBody]
  generalize h.getD 2 0 = ty
  by_cases ht : ty = PING_PACKET_DATA <;> cases hv <;> cases pv <;> simp [ht]

/-- C8 (what the code does): with `N = 1`, when the first packet the slave
receives has an invalid header, the loop prints `x` and exits at once: the
`continue` reaches the exit test with `rx_pid` still at its initial value 0,
which equals `N - 1`.  No DATA packet was validated and nothing was
transmitted. -/
theorem slave_exits_on_unvalidated_packet :
    ∃ t, slave (sourceCfg 1 100) (onePacket badHeaderPacket) zeroRand 1
        = .done t ∧
      t.out = [Event.sym 'x'] ∧ t.num_bytes_received = 0 ∧ t.polls = 1 := by
  refine ⟨_, rfl, ?_, ?_, ?_⟩ <;> decide

/-- C9 (what the code does): in quiet mode a DATA packet with a valid header
and an invalid payload makes the slave print `X`, transmit nothing and leave
the byte counter alone; but the loop then continues if and only if the
packet's sequence identifier differs from `N - 1` (as `unsigned int`). -/
theorem slave_bad_payload_step (p : Params) (rand : Nat → Nat) (s : SlaveState)
    (pkt : RxPacket) (hq : p.verbose = false) (hv : pkt.rx_header_valid = true)
    (ht : pkt.rx_header.getD 2 0 = PING_PACKET_DATA) (hpv : pkt.rx_payload_valid = false) :
    (slaveBody p rand s pkt).out = s.out ++ [Event.sym 'X'] ∧
    (slaveBody p rand s pkt).num_bytes_received = s.num_bytes_received ∧
    (slaveContinues p (slaveBody p rand s pkt) = true ↔
      seqId pkt.rx_header ≠ (p.num_packets + U32 - 1) % U32) := by
  obtain ⟨h, hv0, len, pv⟩ := pkt
  simp only at hv ht hpv
  subst hv hpv
  have hrx := slave_exit_test p rand s ⟨h, true, len, false⟩
  simp only [ht, and_self, if_true] at hrx
  refine ⟨?_, ?_, ?_⟩
  · simp only [slaveBody]
    generalize h.getD 2 0 = ty at ht
    simp [ht, hq]
  · simp only [slaveBody]
    generalize h.getD 2 0 = ty at ht
    simp [ht]
  · simp [slaveContinues, hrx]

/-- C9 at a concrete input: `N = 5`, the first packet is a DATA packet with a
valid header, sequence identifier 4 and an invalid payload.  The slave prints
`X`, transmits nothing, counts no byte, and the loop exits. -/
theorem slave_bad_payload_step_witness :
    ((slaveBody (sourceCfg 5 100) zeroRand SlaveState.init (dataPacket 4 false)).out
        = [Event.sym 'X'] ∧
      (slaveBody (sourceCfg 5 100) zeroRand SlaveState.init (dataPacket 4 false)).num_bytes_received
        = 0 ∧
      (slaveContinues (sourceCfg 5 100)
          (slaveBody (sourceCfg 5 100) zeroRand SlaveState.init (dataPacket 4 false)) = true ↔
        seqId (dataPacket 4 false).rx_header ≠ ((sourceCfg 5 100).num_packets + U32 - 1) % U32)) ∧
    ∃ t, slave (sourceCfg 5 100) (onePacket (dataPacket 4 false)) zeroRand 1 = .done t ∧
      t.out = [Event.sym 'X'] ∧ t.num_bytes_received = 0 :=
  ⟨slave_bad_payload_step (sourceCfg 5 100) zeroRand SlaveState.init (dataPacket 4 false)
      rfl rfl rfl rfl,
    _, rfl, by decide, by decide⟩

/-! ## Sequence identifier round trip -/

theorem slaveBody_valid_header (p : Params) (rand : Nat → Nat) (s : SlaveState)
    (h : List Nat) (len : Nat) (ht : h.getD 2 0 = PING_PACKET_DATA) :
    (slaveBody p rand s ⟨h, true, len, true⟩).tx_header = ackHeader rand s.rcalls h := by
  simp only [slaveBody]
  generalize h.getD 2 0 = ty at ht
  simp [ht]

theorem classify_valid_ack (v : Bool) (tx_pid : Nat) (h : List Nat) (len : Nat)
    (ht : h.getD 2 0 = PING_PACKET_ACK) (hs : seqId h = tx_pid) :
    (classify v tx_pid ⟨h, true, len, true⟩).accepted = true := by
  simp only [classify]
  generalize h.getD 2 0 = ty at ht
  simp [ht, hs]

/-- C10 (as amended, `id < 65536`): the header the master builds for `id`
decodes to `id`; the ACK header the slave builds from it when it validates the
DATA packet decodes to `id` as well; and a fully valid ACK with that header is
accepted by the master pending on `id`. -/
theorem seq_roundtrip (p : Params) (randM randS : Nat → Nat) (m : MasterState)
    (sl : SlaveState) (hid : m.tx_pid < 65536) :
    seqId (txInit p randM m).tx_header = m.tx_pid ∧
    seqId (slaveBody p randS sl
      ⟨(txInit p randM m).tx_header, true, p.tx_payload_len, true⟩).tx_header = m.tx_pid ∧
    (classify p.verbose m.tx_pid
      ⟨(slaveBody p randS sl
          ⟨(txInit p randM m).tx_header, true, p.tx_payload_len, true⟩).tx_header,
        true, 10, true⟩).accepted = true := by
  have h0 : (txInit p randM m).tx_header = dataHeader randM m.rcalls m.tx_pid := by
    simp [txInit]
  have h1 : seqId (dataHeader randM m.rcalls m.tx_pid) = m.tx_pid := by
    rw [seqId_dataHeader]; exact Nat.mod_eq_of_lt hid
  have h2 : (dataHeader randM m.rcalls m.tx_pid).getD 2 0 = PING_PACKET_DATA := by
    simp [dataHeader]
  have h3 : (dataHeader randM m.rcalls m.tx_pid).getD 1 0 < 256 := by
    simp only [dataHeader, List.cons_append, List.getD_cons_succ, List.getD_cons_zero]
    rw [and_0xff]; exact Nat.mod_lt _ (by decide)
  have h4 := slaveBody_valid_header p randS sl _ p.tx_payload_len h2
  have h5 : seqId (ackHeader randS sl.rcalls (dataHeader randM m.rcalls m.tx_pid)) = m.tx_pid := by
    rw [seqId_ackHeader _ _ _ h3, h1]
  rw [h0, h4]
  exact ⟨h1, h5, classify_valid_ack _ _ _ _ (by simp [ackHeader]) h5⟩

/-- C10 at identifier 300 (two non-trivial header bytes). -/
theorem seq_roundtrip_witness :
    seqId (txInit (sourceCfg 1000 100) zeroRand { MasterState.init with tx_pid := 300 }).tx_header
      = 300 ∧
    seqId (slaveBody (sourceCfg 1000 100) zeroRand SlaveState.init
      ⟨(txInit (sourceCfg 1000 100) zeroRand { MasterState.init with tx_pid := 300 }).tx_header,
        true, 200, true⟩).tx_header = 300 ∧
    (classify false 300
      ⟨(slaveBody (sourceCfg 1000 100) zeroRand SlaveState.init
          ⟨(txInit (sourceCfg 1000 100) zeroRand { MasterState.init with tx_pid := 300 }).tx_header,
            true, 200, true⟩).tx_header,
        true, 10, true⟩).accepted = true :=
  seq_roundtrip (sourceCfg 1000 100) zeroRand zeroRand { MasterState.init with tx_pid := 300 }
    SlaveState.init (by decide)

/-- C10 fails at `id = 65536` (possible when `N > 65536`): the two header bytes
decode to 0, and the fully valid ACK the slave builds from that header is not
accepted by the master pending on 65536. -/
theorem seq_roundtrip_counterexample :
    seqId (txInit (sourceCfg 65537 100) zeroRand
      { MasterState.init with tx_pid := 65536 }).tx_header = 0 ∧
    (classify false 65536
      ⟨(slaveBody (sourceCfg 65537 100) zeroRand SlaveState.init
          ⟨(txInit (sourceCfg 65537 100) zeroRand
              { MasterState.init with tx_pid := 65536 }).tx_header, true, 200, true⟩).tx_header,
        true, 10, true⟩).accepted = false := by
  constructor <;> decide

end Ping

namespace Ping

/-! ## Timeout budgeting -/

theorem pollOnce_timer_step {p : Params} {link : Nat → Option RxPacket} {s : MasterState}
    {k : Nat} (hw : p.noWrap) (hk : k < pollsPerAttempt p) (ht : s.timer = k * p.timespec) :
    (pollOnce p link s).timer = (k + 1) * p.timespec := by
  have h1 : (k + 1) * p.timespec ≤ pollsPerAttempt p * p.timespec :=
    Nat.mul_le_mul_right _ hk
  have h2 := hw.2
  have h3 : (k + 1) * p.timespec = k * p.timespec + p.timespec := by ring
  rw [pollOnce_timer, ht, ← h3]
  exact Nat.mod_eq_of_lt (by omega)

/-- Number of receive calls of a wait that starts `d` polls before the
deadline: `d` when nothing is accepted, `j + 1` when the first accepted packet
comes at poll `j` (from 0). -/
theorem ackWait_count (p : Params) (link : Nat → Option RxPacket) (hw : p.noWrap) :
    ∀ (d k : Nat) (s : MasterState) (fuel : Nat),
      pollsPerAttempt p = k + d → s.timer = k * p.timespec → s.ack_received = false →
      d ≤ fuel →
      ∃ t, ackWait p link fuel s = .done t ∧
        ((∀ i, i < d → accepts p s.tx_pid link (s.polls + i) = false) →
          t.polls = s.polls + d ∧ t.ack_received = false) ∧
        (∀ j, j < d → (∀ i, i < j → accepts p s.tx_pid link (s.polls + i) = false) →
          accepts p s.tx_pid link (s.polls + j) = true →
          t.polls = s.polls + (j + 1) ∧ t.ack_received = true) := by
  intro d
  induction d with
  | zero =>
    intro k s fuel hn ht ha _
    have hge := ceil_mul_ge p.ack_timeout p.timespec hw.1
    have hk : k = pollsPerAttempt p := by omega
    have hcond : (!s.ack_received && decide (s.timer < p.ack_timeout)) = false := by
      have : ¬ s.timer < p.ack_timeout := by
        rw [ht, hk]; unfold pollsPerAttempt; omega
      simp [this]
    refine ⟨s, ackWait_done_of_cond _ hcond, fun _ => ⟨rfl, ha⟩, ?_⟩
    intro j hj
    omega
  | succ d ih =>
    intro k s fuel hn ht ha hf
    have hk : k < pollsPerAttempt p := by omega
    obtain ⟨fuel, rfl⟩ : ∃ f, fuel = f + 1 := ⟨fuel - 1, by omega⟩
    have hcond : (!s.ack_received && decide (s.timer < p.ack_timeout)) = true := by
      have := lt_ceil_mul_lt p.ack_timeout p.timespec k hw.1 hk
      simp [ha, ht, this]
    rw [ackWait_step _ hcond]
    have hfr := pollOnce_frame p link s
    cases h0 : accepts p s.tx_pid link s.polls with
    | true =>
      have hack : (pollOnce p link s).ack_received = true := by
        rw [pollOnce_ack, ha, h0]; rfl
      refine ⟨pollOnce p link s, ackWait_done_of_cond _ (by simp [hack]), ?_, ?_⟩
      · intro hno
        have := hno 0 (by omega)
        rw [Nat.add_zero, h0] at this
        exact absurd this (by simp)
      · intro j _ hno _
        have hj0 : j = 0 := by
          by_contra hne
          have := hno 0 (by omega)
          rw [Nat.add_zero, h0] at this
          exact absurd this (by simp)
        subst hj0
        exact ⟨pollOnce_polls p link s, hack⟩
    | false =>
      have hack : (pollOnce p link s).ack_received = false := by
        rw [pollOnce_ack, ha, h0]; rfl
      obtain ⟨t, h1, h2, h3⟩ := ih (k + 1) (pollOnce p link s) fuel (by omega)
        (pollOnce_timer_step hw hk ht) hack (by omega)
      rw [hfr.1, pollOnce_polls] at h2 h3
      refine ⟨t, h1, ?_, ?_⟩
      · intro hno
        obtain ⟨a, b⟩ := h2 (by
          intro i hi
          have := hno (i + 1) (by omega)
          rwa [show s.polls + 1 + i = s.polls + (i + 1) by omega])
        exact ⟨by rw [a]; omega, b⟩
      · intro j hj hno hyes
        obtain ⟨j, rfl⟩ : ∃ j0, j = j0 + 1 := by
          refine ⟨j - 1, ?_⟩
          have hne : j ≠ 0 := by
            intro hj0
            subst hj0
            rw [Nat.add_zero, h0] at hyes
            exact absurd hyes (by simp)
          omega
        obtain ⟨a, b⟩ := h3 j (by omega)
          (by
            intro i hi
            have := hno (i + 1) (by omega)
            rwa [show s.polls + 1 + i = s.polls + (i + 1) by omega])
          (by rwa [show s.polls + 1 + j = s.polls + (j + 1) by omega])
        exact ⟨by rw [a]; omega, b⟩

/-- C11: for every timeout `T` and poll granularity `P > 0` that the
`unsigned int` poll clock can count (`ceil(T/P) * P < 2^32`, as for the
literals 50000 and 500 of the source), the wait that follows a transmission
ends; when no packet is accepted it has made exactly `ceil(T/P)` receive
calls, whatever the link returned and however it was classified, and the flag
is clear (timeout); when the first accepted packet comes at call
`j + 1 ≤ ceil(T/P)` it has made exactly `j + 1` calls and the flag is set. -/
theorem timeout_budget (p : Params) (link : Nat → Option RxPacket) (s : MasterState)
    (fuel : Nat) (hw : p.noWrap) (hf : pollsPerAttempt p ≤ fuel) :
    ∃ t, ackWait p link fuel (transmit p s) = .done t ∧
      ((∀ i, i < pollsPerAttempt p → accepts p s.tx_pid link (s.polls + i) = false) →
        t.polls = s.polls + pollsPerAttempt p ∧ t.ack_received = false) ∧
      (∀ j, j < pollsPerAttempt p →
        (∀ i, i < j → accepts p s.tx_pid link (s.polls + i) = false) →
        accepts p s.tx_pid link (s.polls + j) = true →
        t.polls = s.polls + (j + 1) ∧ t.ack_received = true) := by
  obtain ⟨e1, e2, e3, e4⟩ := transmit_effect p s
  obtain ⟨f1, f2, f3, f4, f5, f6, f7, f8⟩ := transmit_frame p s
  have h := ackWait_count p link hw (pollsPerAttempt p) 0 (transmit p s) fuel (by omega)
    (by rw [e3]; simp) e4 hf
  rw [f1, f6] at h
  exact h

/-- C11 at the literals of the source, `T = 50000` and `P = 500` (100 polls
per attempt): a silent link gives 100 receive calls and a timeout; the ACK at
the third call gives three calls and acceptance. -/
theorem timeout_budget_witness :
    (sourceCfg 1 2).noWrap ∧ pollsPerAttempt (sourceCfg 1 2) = 100 ∧
    (∃ t, ackWait (sourceCfg 1 2) (ackAt 0 2) 100 (transmit (sourceCfg 1 2) MasterState.init)
        = .done t ∧
      ((∀ i, i < pollsPerAttempt (sourceCfg 1 2) →
          accepts (sourceCfg 1 2) MasterState.init.tx_pid (ackAt 0 2)
            (MasterState.init.polls + i) = false) →
        t.polls = MasterState.init.polls + pollsPerAttempt (sourceCfg 1 2) ∧
          t.ack_received = false) ∧
      (∀ j, j < pollsPerAttempt (sourceCfg 1 2) →
        (∀ i, i < j → accepts (sourceCfg 1 2) MasterState.init.tx_pid (ackAt 0 2)
          (MasterState.init.polls + i) = false) →
        accepts (sourceCfg 1 2) MasterState.init.tx_pid (ackAt 0 2)
          (MasterState.init.polls + j) = true →
        t.polls = MasterState.init.polls + (j + 1) ∧ t.ack_received = true)) ∧
    (ackWait (sourceCfg 1 2) silentLink 100
        (transmit (sourceCfg 1 2) MasterState.init)).finished = true ∧
    (ackWait (sourceCfg 1 2) silentLink 100
        (transmit (sourceCfg 1 2) MasterState.init)).state.polls = 100 ∧
    (ackWait (sourceCfg 1 2) silentLink 100
        (transmit (sourceCfg 1 2) MasterState.init)).state.ack_received = false ∧
    (ackWait (sourceCfg 1 2) (ackAt 0 2) 100
        (transmit (sourceCfg 1 2) MasterState.init)).state.polls = 3 ∧
    (ackWait (sourceCfg 1 2) (ackAt 0 2) 100
        (transmit (sourceCfg 1 2) MasterState.init)).state.ack_received = true :=
  ⟨by decide, by decide,
    timeout_budget (sourceCfg 1 2) (ackAt 0 2) MasterState.init 100 (by decide) (by decide),
    by decide, by decide, by decide, by decide, by decide⟩

/-- Why the timeout lemmas assume `noWrap`: were the literals of the source
replaced by `T = 2^32 - 1` and `P = 2^31`, the `unsigned int` clock would
alternate between 0 and `2^31`, both below `T`, and on a silent link the wait
would never end. -/
theorem ackWait_wrap_never_ends :
    ∀ (fuel : Nat) (s : MasterState), s.ack_received = false →
      (s.timer = 0 ∨ s.timer = 2147483648) →
      (ackWait wrapCfg silentLink fuel s).finished = false ∧
      (ackWait wrapCfg silentLink fuel s).state.polls = s.polls + fuel := by
  intro fuel
  induction fuel with
  | zero =>
    intro s ha ht
    have hcond : (!s.ack_received && decide (s.timer < wrapCfg.ack_timeout)) = true := by
      rcases ht with ht | ht <;> simp [ha, ht, wrapCfg, sourceCfg]
    unfold ackWait
    simp [hcond, Run.finished, Run.state]
  | succ fuel ih =>
    intro s ha ht
    have hcond : (!s.ack_received && decide (s.timer < wrapCfg.ack_timeout)) = true := by
      rcases ht with ht | ht <;> simp [ha, ht, wrapCfg, sourceCfg]
    rw [ackWait_step _ hcond]
    have hack : (pollOnce wrapCfg silentLink s).ack_received = false := by
      rw [pollOnce_ack, ha]; rfl
    have htim : (pollOnce wrapCfg silentLink s).timer = 0 ∨
        (pollOnce wrapCfg silentLink s).timer = 2147483648 := by
      rw [pollOnce_timer]
      rcases ht with ht | ht
      · right; rw [ht]; rfl
      · left; rw [ht]; rfl
    obtain ⟨h1, h2⟩ := ih (pollOnce wrapCfg silentLink s) hack htim
    refine ⟨h1, ?_⟩
    rw [h2, pollOnce_polls]; omega

/-! ## Packets that are not accepted -/

theorem classify_accepted_iff (v : Bool) (tx_pid : Nat) (pkt : RxPacket) :
    (classify v tx_pid pkt).accepted = true ↔
      (pkt.rx_header_valid = true ∧ pkt.rx_header.getD 2 0 = PING_PACKET_ACK ∧
        pkt.rx_payload_valid = true ∧ seqId pkt.rx_header = tx_pid) := by
  obtain ⟨h, hv, len, pv⟩ := pkt
  simp only [classify]
  generalize h.getD 2 0 = t
  generalize seqId h = q
  by_cases ht : t = PING_PACKET_ACK <;> by_cases hs : q = tx_pid <;>
    cases hv <;> cases pv <;> simp [ht, hs]

theorem classify_rx_pid (v : Bool) (tx_pid : Nat) (pkt : RxPacket) :
    (classify v tx_pid pkt).rx_pid = seqId pkt.rx_header := by
  obtain ⟨h, hv, len, pv⟩ := pkt
  simp only [classify]
  generalize h.getD 2 0 = t
  generalize seqId h = q
  by_cases ht : t = PING_PACKET_ACK <;> by_cases hs : q = tx_pid <;>
    cases hv <;> cases pv <;> simp [ht, hs]

/-- C13: when a receive call returns a packet that is not accepted (header
invalid, type not ACK, payload invalid, or sequence different from the pending
identifier), the pending identifier, the attempt counter, the byte counter and
the acknowledgement flag are unchanged, as are the packet under transmission,
the random source and the history; the poll clock advances by `timespec` and
one receive call is counted.  The only other effects are the scratch variable
`rx_pid`, set from the header, and the status output of the classification. -/
theorem rejected_packet_frame (p : Params) (link : Nat → Option RxPacket) (s : MasterState)
    (pkt : RxPacket) (hrx : link s.polls = some pkt)
    (hrej : pkt.rx_header_valid = false ∨ pkt.rx_header.getD 2 0 ≠ PING_PACKET_ACK ∨
      pkt.rx_payload_valid = false ∨ seqId pkt.rx_header ≠ s.tx_pid) :
    (pollOnce p link s).tx_pid = s.tx_pid ∧
    (pollOnce p link s).num_attempts = s.num_attempts ∧
    (pollOnce p link s).num_bytes_received = s.num_bytes_received ∧
    (pollOnce p link s).ack_received = s.ack_received ∧
    (pollOnce p link s).tx_header = s.tx_header ∧
    (pollOnce p link s).tx_payload = s.tx_payload ∧
    (pollOnce p link s).rcalls = s.rcalls ∧
    (pollOnce p link s).sent = s.sent ∧ (pollOnce p link s).acked = s.acked ∧
    (pollOnce p link s).bailed = s.bailed ∧
    (pollOnce p link s).timer = (s.timer + p.timespec) % U32 ∧
    (pollOnce p link s).polls = s.polls + 1 ∧
    (pollOnce p link s).rx_pid = seqId pkt.rx_header ∧
    (pollOnce p link s).out = s.out ++ (classify p.verbose s.tx_pid pkt).events := by
  have hacc : (classify p.verbose s.tx_pid pkt).accepted = false := by
    cases h : (classify p.verbose s.tx_pid pkt).accepted with
    | false => rfl
    | true =>
      obtain ⟨a, b, c, d⟩ := (classify_accepted_iff _ _ _).1 h
      rcases hrej with e | e | e | e
      · rw [a] at e; exact absurd e (by simp)
      · exact absurd b e
      · rw [c] at e; exact absurd e (by simp)
      · exact absurd d e
  obtain ⟨f1, f2, f3, f4, f5, f6, f7, f8, f9⟩ := pollOnce_frame p link s
  have hack : (pollOnce p link s).ack_received = s.ack_received := by
    rw [pollOnce_ack]
    simp [accepts, hrx, hacc]
  refine ⟨f1, f4, f5, hack, f2, f3, f6, f7, f8, f9, pollOnce_timer p link s,
    pollOnce_polls p link s, ?_, ?_⟩
  · simp [pollOnce, hrx, classify_rx_pid]
  · simp [pollOnce, hrx]

/-- C13 at a packet with an invalid header, received as the first packet of
the run with the source's constants. -/
theorem rejected_packet_frame_witness :
    (pollOnce (sourceCfg 1 2) (onePacket badHeaderPacket) MasterState.init).tx_pid = 0 ∧
    (pollOnce (sourceCfg 1 2) (onePacket badHeaderPacket) MasterState.init).num_attempts = 0 ∧
    (pollOnce (sourceCfg 1 2) (onePacket badHeaderPacket) MasterState.init).num_bytes_received
      = 0 ∧
    (pollOnce (sourceCfg 1 2) (onePacket badHeaderPacket) MasterState.init).ack_received
      = false ∧
    (pollOnce (sourceCfg 1 2) (onePacket badHeaderPacket) MasterState.init).tx_header = [] ∧
    (pollOnce (sourceCfg 1 2) (onePacket badHeaderPacket) MasterState.init).tx_payload = [] ∧
    (pollOnce (sourceCfg 1 2) (onePacket badHeaderPacket) MasterState.init).rcalls = 0 ∧
    (pollOnce (sourceCfg 1 2) (onePacket badHeaderPacket) MasterState.init).sent = [] ∧
    (pollOnce (sourceCfg 1 2) (onePacket badHeaderPacket) MasterState.init).acked = [] ∧
    (pollOnce (sourceCfg 1 2) (onePacket badHeaderPacket) MasterState.init).bailed = false ∧
    (pollOnce (sourceCfg 1 2) (onePacket badHeaderPacket) MasterState.init).timer = 500 ∧
    (pollOnce (sourceCfg 1 2) (onePacket badHeaderPacket) MasterState.init).polls = 1 ∧
    (pollOnce (sourceCfg 1 2) (onePacket badHeaderPacket) MasterState.init).rx_pid = 0 ∧
    (pollOnce (sourceCfg 1 2) (onePacket badHeaderPacket) MasterState.init).out
      = [Event.sym 'x'] :=
  rejected_packet_frame (sourceCfg 1 2) (onePacket badHeaderPacket) MasterState.init
    badHeaderPacket rfl (Or.inl rfl)

/-! ## The packet transmitted on retries -/

theorem classify_events_no_tx (v : Bool) (tx_pid : Nat) (pkt : RxPacket) :
    (classify v tx_pid pkt).events.filter Event.isTx = [] := by
  obtain ⟨h, hv, len, pv⟩ := pkt
  simp only [classify]
  generalize h.getD 2 0 = t
  generalize seqId h = q
  by_cases ht : t = PING_PACKET_ACK <;> by_cases hs : q = tx_pid <;>
    cases hv <;> cases pv <;> cases v <;> simp [ht, hs, Event.isTx]

theorem pollOnce_txs (p : Params) (link : Nat → Option RxPacket) (s : MasterState) :
    (pollOnce p link s).out.filter Event.isTx = s.out.filter Event.isTx := by
  unfold pollOnce
  cases link s.polls with
  | none => rfl
  | some pkt => simp [List.filter_append, classify_events_no_tx]

theorem ackWait_txs (p : Params) (link : Nat → Option RxPacket) (fuel : Nat) :
    ∀ s : MasterState,
      (ackWait p link fuel s).state.out.filter Event.isTx = s.out.filter Event.isTx := by
  induction fuel with
  | zero =>
    intro s
    unfold ackWait
    split <;> simp [Run.state]
  | succ fuel ih =>
    intro s
    cases h : (!s.ack_received && decide (s.timer < p.ack_timeout)) with
    | false => rw [ackWait_done_of_cond _ h]; rfl
    | true => rw [ackWait_step _ h, ih, pollOnce_txs]

theorem transmit_txs (p : Params) (s : MasterState) :
    (transmit p s).out.filter Event.isTx =
      s.out.filter Event.isTx ++ [Event.tx s.tx_header s.tx_payload p.tx_payload_len] := by
  cases hv : p.verbose <;> simp [transmit, hv, List.filter_append, Event.isTx]

theorem noteTimeout_txs (p : Params) (s : MasterState) :
    (noteTimeout p s).out.filter Event.isTx = s.out.filter Event.isTx := by
  cases hv : p.verbose <;> simp [noteTimeout, hv, List.filter_append, Event.isTx]

/-- Every transmission of the attempt loop, first attempt and retries alike,
carries the header and payload the loop was started with; the loop never
calls `rand()`. -/
theorem attemptLoop_same_packet (p : Params) (link : Nat → Option RxPacket) :
    ∀ (fuel : Nat) (s : MasterState),
      ∃ m, (attemptLoop p link fuel s).state.out.filter Event.isTx =
          s.out.filter Event.isTx ++
            List.replicate m (Event.tx s.tx_header s.tx_payload p.tx_payload_len) ∧
        (attemptLoop p link fuel s).state.sent = s.sent ++ List.replicate m s.tx_pid ∧
        (attemptLoop p link fuel s).state.tx_header = s.tx_header ∧
        (attemptLoop p link fuel s).state.tx_payload = s.tx_payload ∧
        (attemptLoop p link fuel s).state.rcalls = s.rcalls ∧
        (attemptLoop p link fuel s).state.tx_pid = s.tx_pid := by
  intro fuel
  induction fuel with
  | zero =>
    intro s
    exact ⟨0, by simp [attemptLoop, Run.state], by simp [attemptLoop, Run.state], rfl, rfl, rfl,
      rfl⟩
  | succ fuel ih =>
    intro s
    obtain ⟨e1, e2, e3, e4⟩ := transmit_effect p s
    obtain ⟨f1, f2, f3, f4, f5, f6, f7, f8⟩ := transmit_frame p s
    have hfr := ackWait_frame p link fuel (transmit p s)
    have htx := ackWait_txs p link fuel (transmit p s)
    rw [transmit_txs] at htx
    rw [attemptLoop_succ]
    cases hw : ackWait p link fuel (transmit p s) with
    | fuelOut t1 =>
      rw [hw] at hfr htx
      simp only [Run.state] at hfr htx ⊢
      exact ⟨1, htx, by rw [hfr.2.2.2.2.2.2.1, e2]; rfl, by rw [hfr.2.1, f2],
        by rw [hfr.2.2.1, f3], by rw [hfr.2.2.2.2.2.1, f5], by rw [hfr.1, f1]⟩
    | done t1 =>
      rw [hw] at hfr htx
      simp only [Run.state] at hfr htx
      cases hack : t1.ack_received with
      | true =>
        obtain ⟨c1, c2, c3, c4, c5, c6, c7, c8, c9, c10, c11⟩ := creditAck_effect p t1
        have cout : (creditAck p t1).out = t1.out := by simp [creditAck]
        simp only [hack, if_true, Run.state]
        exact ⟨1, by rw [cout]; exact htx, by rw [c5, hfr.2.2.2.2.2.2.1, e2]; rfl,
          by rw [c10, hfr.2.1, f2], by rw [c11, hfr.2.2.1, f3],
          by rw [c9, hfr.2.2.2.2.2.1, f5], by rw [c3, hfr.1, f1]⟩
      | false =>
        obtain ⟨g1, g2, g3⟩ := noteTimeout_frame p t1
        have hpid : (noteTimeout p t1).tx_pid = s.tx_pid := by rw [g1.1, hfr.1, f1]
        have hhdr : (noteTimeout p t1).tx_header = s.tx_header := by rw [g1.2.1, hfr.2.1, f2]
        have hpl : (noteTimeout p t1).tx_payload = s.tx_payload := by
          rw [g1.2.2.1, hfr.2.2.1, f3]
        have hrc : (noteTimeout p t1).rcalls = s.rcalls := by
          rw [g1.2.2.2.2.2.1, hfr.2.2.2.2.2.1, f5]
        have hsent : (noteTimeout p t1).sent = s.sent ++ [s.tx_pid] := by
          rw [g1.2.2.2.2.2.2.1, hfr.2.2.2.2.2.2.1, e2]
        have hout : (noteTimeout p t1).out.filter Event.isTx =
            s.out.filter Event.isTx ++ [Event.tx s.tx_header s.tx_payload p.tx_payload_len] := by
          rw [noteTimeout_txs, htx]
        simp only [Bool.false_eq_true, if_false, g3, hack, Bool.not_false, Bool.true_and]
        by_cases hlt : (noteTimeout p t1).num_attempts < p.max_num_attempts
        · simp only [hlt, decide_True, if_true]
          obtain ⟨m, i1, i2, i3, i4, i5, i6⟩ := ih (noteTimeout p t1)
          refine ⟨m + 1, ?_, ?_, by rw [i3, hhdr], by rw [i4, hpl], by rw [i5, hrc],
            by rw [i6, hpid]⟩
          · rw [i1, hout, hhdr, hpl, List.append_assoc]; rfl
          · rw [i2, hsent, hpid, List.append_assoc]; rfl
        · simp only [hlt, decide_False, Bool.false_eq_true, if_false, Run.state]
          exact ⟨1, hout, by rw [hsent]; rfl, hhdr, hpl, hrc, hpid⟩

/-- When the attempt loop ends having transmitted `k` times, the `k` calls of
`iqpr_txpacket` it made all carry the header and payload it was started with. -/
theorem attemptLoop_done_txs (p : Params) (link : Nat → Option RxPacket) (fuel : Nat)
    (s t : MasterState) (k : Nat) (h : attemptLoop p link fuel s = .done t)
    (hs : t.sent = s.sent ++ List.replicate k s.tx_pid) :
    t.out.filter Event.isTx =
      s.out.filter Event.isTx ++
        List.replicate k (Event.tx s.tx_header s.tx_payload p.tx_payload_len) := by
  obtain ⟨m, h1, h2, _, _, _, _⟩ := attemptLoop_same_packet p link fuel s
  rw [h] at h1 h2
  simp only [Run.state] at h1 h2
  have hrep : List.replicate m s.tx_pid = List.replicate k s.tx_pid :=
    List.append_cancel_left (h2.symm.trans hs)
  have hm : m = k := by
    have := congrArg List.length hrep
    simpa using this
  rw [← hm]
  exact h1

theorem txInit_packet (p : Params) (rand : Nat → Nat) (s : MasterState) :
    (txInit p rand s).out = s.out ∧
    (txInit p rand s).tx_header = dataHeader rand s.rcalls s.tx_pid ∧
    (txInit p rand s).tx_payload =
      (List.range p.tx_payload_len).map (fun n => rand (s.rcalls + 11 + n) % 256) := by
  simp [txInit]

/-- The session loop that spends all `A` attempts on the pending identifier:
the bail branch, the ghost history and the calls of `iqpr_txpacket`. -/
theorem sessionLoop_abort_txs (p : Params) (link : Nat → Option RxPacket) (rand : Nat → Nat)
    (hc : p.clockOk) (hA : p.max_num_attempts < U32) (hA1 : 1 ≤ p.max_num_attempts)
    (s : MasterState) (hid : s.tx_pid < p.num_packets)
    (hno : ∀ j, s.polls ≤ j → accepts p s.tx_pid link j = false)
    (fuel : Nat) (hf : pollsPerAttempt p + p.max_num_attempts + 1 ≤ fuel) :
    ∃ t, sessionLoop p link rand fuel s = .done t ∧ t.bailed = true ∧ t.tx_pid = s.tx_pid ∧
      t.sent = s.sent ++ List.replicate p.max_num_attempts s.tx_pid ∧
      t.num_bytes_received = s.num_bytes_received ∧ t.acked = s.acked ∧
      t.out.filter Event.isTx =
        s.out.filter Event.isTx ++
          List.replicate p.max_num_attempts
            (Event.tx (dataHeader rand s.rcalls s.tx_pid)
              ((List.range p.tx_payload_len).map (fun n => rand (s.rcalls + 11 + n) % 256))
              p.tx_payload_len) := by
  obtain ⟨fuel, rfl⟩ : ∃ f, fuel = f + 1 := ⟨fuel - 1, by omega⟩
  obtain ⟨f1, f2, f3, f4, f5, f6, f7⟩ := txInit_frame p rand s
  obtain ⟨g1, g2, g3⟩ := txInit_packet p rand s
  obtain ⟨m, hm⟩ : ∃ m, p.max_num_attempts = m + 1 := ⟨p.max_num_attempts - 1, by omega⟩
  obtain ⟨t1, h1, h2, h3, h4, h5, h6, h7, h8, h9⟩ := attemptLoop_timeout p link hc hA m
    (txInit p rand s) fuel (by rw [f2]; omega)
    (by intro j hj; rw [f1]; exact hno j (by omega)) (by omega)
  have htx := attemptLoop_done_txs p link fuel (txInit p rand s) t1 (m + 1) h1 h4
  rw [g1, g2, g3] at htx
  rw [sessionLoop_succ]
  simp only [hid, if_true, h1, h2, beq_self_eq_true]
  refine ⟨bail t1, rfl, by simp [bail], ?_, ?_, ?_, ?_, ?_⟩
  · simp [bail, h5, f1]
  · simp [bail, h4, f1, f5, hm]
  · simp [bail, h6, f3]
  · simp [bail, h7, f6]
  · have hb : (bail t1).out.filter Event.isTx = t1.out.filter Event.isTx := by
      simp [bail, List.filter_append, Event.isTx]
    rw [hb, htx, hm]

/-- C2 (as amended, `1 ≤ A`): for every pending identifier `id < N`, if no
packet is accepted from the current poll on, the session loop ends having
called `iqpr_txpacket` exactly `A` times more, each time with the DATA packet
built for `id` (header bytes of `id`, tag DATA, its filler and payload), and
with no other packet; it takes the bail branch with `tx_pid` still `id`, and
leaves the byte counter and the credited list as they were. -/
theorem no_ack_exactly_A_then_abort (p : Params) (link : Nat → Option RxPacket)
    (rand : Nat → Nat) (s : MasterState) (hwf : p.wf) (hc : p.clockOk)
    (hA1 : 1 ≤ p.max_num_attempts) (hid : s.tx_pid < p.num_packets)
    (hno : ∀ j, s.polls ≤ j → accepts p s.tx_pid link j = false)
    (fuel : Nat) (hf : pollsPerAttempt p + p.max_num_attempts + 1 ≤ fuel) :
    ∃ t, sessionLoop p link rand fuel s = .done t ∧ t.bailed = true ∧ t.tx_pid = s.tx_pid ∧
      t.sent = s.sent ++ List.replicate p.max_num_attempts s.tx_pid ∧
      t.num_bytes_received = s.num_bytes_received ∧ t.acked = s.acked ∧
      t.out.filter Event.isTx =
        s.out.filter Event.isTx ++
          List.replicate p.max_num_attempts
            (Event.tx (dataHeader rand s.rcalls s.tx_pid)
              ((List.range p.tx_payload_len).map (fun n => rand (s.rcalls + 11 + n) % 256))
              p.tx_payload_len) :=
  sessionLoop_abort_txs p link rand hc hwf.2.1 hA1 s hid hno fuel hf

/-- C2, scenario 2: `N = 1`, `A = 2` (run with `-N 1 -A 2 -n 4`), a link that
never delivers anything: exactly two calls of `iqpr_txpacket`, both with the
DATA packet of identifier 0, the session aborts, no byte is credited.  The
last conjunct is the whole output of the run, evaluated. -/
theorem no_ack_exactly_A_then_abort_witness :
    shortPayloadCfg.wf ∧ shortPayloadCfg.clockOk ∧
    (∃ t, master shortPayloadCfg silentLink zeroRand 110 = .done t ∧ t.bailed = true ∧
      t.tx_pid = 0 ∧ t.sent = [0, 0] ∧ t.num_bytes_received = 0 ∧ t.acked = [] ∧
      t.out.filter Event.isTx =
        [Event.tx [0, 0, 59, 0, 0, 0, 0, 0, 0, 0, 0, 0, 0, 0] [0, 0, 0, 0] 4,
         Event.tx [0, 0, 59, 0, 0, 0, 0, 0, 0, 0, 0, 0, 0, 0] [0, 0, 0, 0] 4]) ∧
    (master shortPayloadCfg silentLink zeroRand 110).state.out =
      [Event.tx [0, 0, 59, 0, 0, 0, 0, 0, 0, 0, 0, 0, 0, 0] [0, 0, 0, 0] 4, Event.sym 'T',
       Event.tx [0, 0, 59, 0, 0, 0, 0, 0, 0, 0, 0, 0, 0, 0] [0, 0, 0, 0] 4, Event.sym 'T',
       Event.info "transmitter reached maximum number of attemts; bailing" []] :=
  ⟨by decide, by decide,
    no_ack_exactly_A_then_abort shortPayloadCfg silentLink zeroRand MasterState.init
      (by decide) (by decide) (by decide) (by decide) (fun _ _ => rfl) 110 (by decide),
    by decide⟩

/-- C4: if the first accepted packet for the pending identifier comes at poll
`i` (from 0) of attempt `k` with `1 ≤ k ≤ A`, the attempt loop for that
identifier ends with `ack_received` set after exactly `k` calls of
`iqpr_txpacket`, each with the DATA packet built for the identifier, and the
byte counter has grown by exactly the payload length, credited once. -/
theorem ack_on_attempt_k_accepted (p : Params) (link : Nat → Option RxPacket)
    (rand : Nat → Nat) (s : MasterState) (hwf : p.wf) (hc : p.clockOk)
    (k i : Nat) (hk1 : 1 ≤ k) (hkA : k ≤ p.max_num_attempts) (hi : i < pollsPerAttempt p)
    (hb : s.num_bytes_received + p.tx_payload_len < U64)
    (hno : ∀ j, j < (k - 1) * pollsPerAttempt p + i →
      accepts p s.tx_pid link (s.polls + j) = false)
    (hyes : accepts p s.tx_pid link (s.polls + ((k - 1) * pollsPerAttempt p + i)) = true)
    (fuel : Nat) (hf : pollsPerAttempt p + k ≤ fuel) :
    ∃ t, attemptLoop p link fuel (txInit p rand s) = .done t ∧ t.ack_received = true ∧
      t.num_attempts = k ∧ t.sent = s.sent ++ List.replicate k s.tx_pid ∧
      t.num_bytes_received = s.num_bytes_received + p.tx_payload_len ∧
      t.acked = s.acked ++ [s.tx_pid] ∧ t.tx_pid = s.tx_pid ∧ t.bailed = s.bailed ∧
      t.out.filter Event.isTx =
        s.out.filter Event.isTx ++
          List.replicate k
            (Event.tx (dataHeader rand s.rcalls s.tx_pid)
              ((List.range p.tx_payload_len).map (fun n => rand (s.rcalls + 11 + n) % 256))
              p.tx_payload_len) := by
  obtain ⟨f1, f2, f3, f4, f5, f6, f7⟩ := txInit_frame p rand s
  obtain ⟨g1, g2, g3⟩ := txInit_packet p rand s
  obtain ⟨m, hm⟩ : ∃ m, k = m + 1 := ⟨k - 1, by omega⟩
  have hm1 : k - 1 = m := by omega
  rw [hm1] at hno hyes
  obtain ⟨t1, h1, h2, h3, h4, h5, h6, h7, h8, h9⟩ := attemptLoop_accept p link hc hwf.2.1 i hi m
    (txInit p rand s) fuel (by rw [f2]; omega)
    (by intro j hj; rw [f1, f4]; exact hno j hj)
    (by rw [f1, f4]; exact hyes) (by omega)
  have htx := attemptLoop_done_txs p link fuel (txInit p rand s) t1 (m + 1) h1 h4
  rw [g1, g2, g3] at htx
  refine ⟨t1, h1, h2, ?_, ?_, ?_, ?_, ?_, ?_, ?_⟩
  · rw [h3, f2, hm]; omega
  · rw [h4, f5, f1, hm]
  · rw [h6, f3, Nat.mod_eq_of_lt hb]
  · rw [h7, f6, f1]
  · rw [h5, f1]
  · rw [h8, f7]
  · rw [htx, hm]

/-- C4 at `N = 1`, `A = 3` with the matching ACK at poll slice 3 of the 2nd
attempt: two calls of `iqpr_txpacket` with the DATA packet of identifier 0
(200 zero payload bytes under `zeroRand`), accepted, 200 bytes credited.
First with the literals of the source (100 polls per attempt, the ACK at
receive call 102 from 0), then with the timing of scenario 1, `T = 500` and
`P = 100` (five polls per attempt, the ACK at receive call 7).  The last
conjunct is the evaluated output of that run: transmit, `T`, transmit, `.`. -/
theorem ack_on_attempt_k_accepted_witness :
    (pollsPerAttempt (sourceCfg 1 3) = 100 ∧
      ∃ t, attemptLoop (sourceCfg 1 3) (ackAt 0 102) 102
          (txInit (sourceCfg 1 3) zeroRand MasterState.init) = .done t ∧
        t.ack_received = true ∧ t.num_attempts = 2 ∧ t.sent = [0, 0] ∧
        t.num_bytes_received = 200 ∧ t.acked = [0] ∧ t.tx_pid = 0 ∧ t.bailed = false ∧
        t.out.filter Event.isTx =
          [Event.tx [0, 0, 59, 0, 0, 0, 0, 0, 0, 0, 0, 0, 0, 0]
             ((List.range 200).map (fun _ => 0)) 200,
           Event.tx [0, 0, 59, 0, 0, 0, 0, 0, 0, 0, 0, 0, 0, 0]
             ((List.range 200).map (fun _ => 0)) 200]) ∧
    (pollsPerAttempt (scenario 1 3) = 5 ∧
      ∃ t, attemptLoop (scenario 1 3) (ackAt 0 7) 7
          (txInit (scenario 1 3) zeroRand MasterState.init) = .done t ∧
        t.ack_received = true ∧ t.num_attempts = 2 ∧ t.sent = [0, 0] ∧
        t.num_bytes_received = 200 ∧ t.acked = [0] ∧ t.tx_pid = 0 ∧ t.bailed = false ∧
        t.out.filter Event.isTx =
          [Event.tx [0, 0, 59, 0, 0, 0, 0, 0, 0, 0, 0, 0, 0, 0]
             ((List.range 200).map (fun _ => 0)) 200,
           Event.tx [0, 0, 59, 0, 0, 0, 0, 0, 0, 0, 0, 0, 0, 0]
             ((List.range 200).map (fun _ => 0)) 200]) ∧
    ((attemptLoop (scenario 1 3) (ackAt 0 7) 7
        (txInit (scenario 1 3) zeroRand MasterState.init)).state.out.map Event.isTx =
      [true, false, true, false]) :=
  ⟨⟨by decide,
      ack_on_attempt_k_accepted (sourceCfg 1 3) (ackAt 0 102) zeroRand MasterState.init
        (by decide) (by decide) 2 2 (by decide) (by decide) (by decide) (by decide)
        (fun j hj => by
          have h102 : ¬ (j = 102) := by
            have : j < 102 := hj
            omega
          simp [accepts, ackAt, MasterState.init, h102])
        (by decide) 102 (by decide)⟩,
    ⟨by decide,
      ack_on_attempt_k_accepted (scenario 1 3) (ackAt 0 7) zeroRand MasterState.init
        (by decide) (by decide) 2 2 (by decide) (by decide) (by decide) (by decide)
        (fun j hj => by
          have h7 : ¬ (j = 7) := by
            have : j < 7 := hj
            omega
          simp [accepts, ackAt, MasterState.init, h7])
        (by decide) 7 (by decide)⟩,
    by decide⟩

/-- C14 (as amended): with the random source as explicit state, the master
builds the packet once per sequence identifier, before the first attempt: the
header holds the identifier, the DATA tag and 11 filler bytes drawn from the
calls `rcalls .. rcalls + 10` of `rand()`, and the payload takes the next `L`
calls.  Every transmission of the attempt loop for that identifier, retries
included, sends this same header and payload, and the random source is where
the construction left it: it is not consulted between attempts. -/
theorem packet_built_once_per_id (p : Params) (link : Nat → Option RxPacket)
    (rand : Nat → Nat) (fuel : Nat) (s : MasterState) :
    (txInit p rand s).tx_header =
      [(s.tx_pid >>> 8) &&& 0xff, s.tx_pid &&& 0xff, PING_PACKET_DATA] ++
        (List.range 11).map (fun n => rand (s.rcalls + n) &&& 0xff) ∧
    (txInit p rand s).rcalls = s.rcalls + 11 + p.tx_payload_len ∧
    ∃ m, (attemptLoop p link fuel (txInit p rand s)).state.out.filter Event.isTx =
        s.out.filter Event.isTx ++
          List.replicate m
            (Event.tx (txInit p rand s).tx_header (txInit p rand s).tx_payload p.tx_payload_len) ∧
      (attemptLoop p link fuel (txInit p rand s)).state.sent =
        s.sent ++ List.replicate m s.tx_pid ∧
      (attemptLoop p link fuel (txInit p rand s)).state.rcalls =
        s.rcalls + 11 + p.tx_payload_len := by
  obtain ⟨m, h1, h2, _, _, h5, _⟩ := attemptLoop_same_packet p link fuel (txInit p rand s)
  have e1 : (txInit p rand s).out = s.out := by simp [txInit]
  have e2 : (txInit p rand s).sent = s.sent := by simp [txInit]
  have e3 : (txInit p rand s).tx_pid = s.tx_pid := by simp [txInit]
  have e4 : (txInit p rand s).rcalls = s.rcalls + 11 + p.tx_payload_len := by simp [txInit]
  refine ⟨by simp [txInit, dataHeader, filler], e4, m, ?_, ?_, ?_⟩
  · rw [h1, e1]
  · rw [h2, e2, e3]
  · rw [h5, e4]

/-- C14 fails on a retry: run with `-N 1 -A 2 -n 4` on a silent link and a
`rand()` that returns a new value at every call, the master transmits twice,
and the second transmission carries the same 11 filler bytes (and payload) as
the first; `rand()` was called 15 times in all, for one header and one
payload. -/
theorem retry_reuses_filler_counterexample :
    (master shortPayloadCfg silentLink countRand 110).state.out.filter Event.isTx =
      [Event.tx [0, 0, 59, 0, 1, 2, 3, 4, 5, 6, 7, 8, 9, 10] [11, 12, 13, 14] 4,
       Event.tx [0, 0, 59, 0, 1, 2, 3, 4, 5, 6, 7, 8, 9, 10] [11, 12, 13, 14] 4] ∧
    (master shortPayloadCfg silentLink countRand 110).state.sent = [0, 0] ∧
    (master shortPayloadCfg silentLink countRand 110).state.rcalls = 15 := by
  refine ⟨?_, ?_, ?_⟩ <;> decide

end Ping

namespace FramestatsTx

/-! ## Frame headers of framestats_tx -/

theorem and_0xffff (x : Nat) : x &&& 0xffff = x % 65536 :=
  Nat.and_pow_two_sub_one_eq_mod x 16

theorem writeHeader_pid (pid payload_len fec0 fec1 : Nat) :
    256 * (writeHeader pid payload_len fec0 fec1).getD 0 0 +
      (writeHeader pid payload_len fec0 fec1).getD 1 0 = pid % 65536 := by
  simp only [writeHeader, List.getD_cons_zero, List.getD_cons_succ]
  rw [Ping.and_0xff, Ping.and_0xff, Nat.shiftRight_eq_div_pow]
  omega

theorem writeHeader_len (pid payload_len fec0 fec1 : Nat) :
    256 * (writeHeader pid payload_len fec0 fec1).getD 2 0 +
      (writeHeader pid payload_len fec0 fec1).getD 3 0 = payload_len % 65536 := by
  simp only [writeHeader, List.getD_cons_zero, List.getD_cons_succ]
  rw [Ping.and_0xff, Ping.and_0xff, Nat.shiftRight_eq_div_pow]
  omega

/-- Invariant of the transmit loop: `pid` stays below 65536 and every frame
carries the header written from the `pid` it was generated with, whether the
loop ends or traps. -/
theorem txBlocks_inv (c : Config) (rand : Nat → Nat) :
    ∀ (l : List Nat) (s : TxState), s.pid < 65536 →
      (∀ f ∈ s.frames, f.pid < 65536 ∧
        f.header = writeHeader f.pid c.payload_len c.fec0 c.fec1) →
      ∀ f ∈ (txBlocks c rand l s).frames, f.pid < 65536 ∧
        f.header = writeHeader f.pid c.payload_len c.fec0 c.fec1 := by
  intro l
  induction l with
  | nil => intro s _ h2; exact h2
  | cons i l ih =>
    intro s h1 h2
    rw [txBlocks]
    cases hb : txBlock c rand s i with
    | none => exact h2
    | some s1 =>
      simp only []
      unfold txBlock at hb
      split at hb
      · exact absurd hb (by simp)
      · split at hb
        · simp only [Option.some.injEq] at hb
          subst hb
          apply ih
          · simp only []
            rw [and_0xffff]
            exact Nat.mod_lt _ (by decide)
          · intro f hf
            simp only [List.mem_append, List.mem_singleton] at hf
            rcases hf with hf | hf
            · exact h2 f hf
            · subst hf
              exact ⟨h1, rfl⟩
        · simp only [Option.some.injEq] at hb
          subst hb
          exact ih s h1 h2

/-- For every frame the packet identifier is recovered from header bytes 0 and
1, and the header length bytes 2 and 3 hold `payload_len` modulo 65536, hence
`payload_len` itself when it is below 65536. -/
theorem header_fields (c : Config) (rand : Nat → Nat) :
    ∀ f ∈ (txLoop c rand).frames,
      256 * f.header.getD 0 0 + f.header.getD 1 0 = f.pid ∧
      256 * f.header.getD 2 0 + f.header.getD 3 0 = c.payload_len % 65536 ∧
      (c.payload_len < 65536 →
        256 * f.header.getD 2 0 + f.header.getD 3 0 = c.payload_len) := by
  intro f hf
  obtain ⟨h1, h2⟩ := txBlocks_inv c rand (List.range c.num_blocks)
    { pid := 0, rcalls := 0, frames := [] } (by decide) (by simp) f hf
  rw [h2]
  refine ⟨?_, writeHeader_len _ _ _ _, fun hlt => ?_⟩
  · rw [writeHeader_pid, Nat.mod_eq_of_lt h1]
  · rw [writeHeader_len, Nat.mod_eq_of_lt hlt]

/-- C15 (what the code does): `payload_len = 65536` is not rejected by the
argument check `payload_len > (1<<16)`, the run generates a frame, and the
header length bytes of every frame are 0 and 0: they give back 0, not 65536. -/
theorem max_payload_len_not_recovered :
    payloadLenRejected maxLenCfg.payload_len = false ∧
    ∀ rand : Nat → Nat, ∃ st, run maxLenCfg rand = .finished st ∧ st.frames.length = 1 ∧
      ∀ f ∈ st.frames, f.header.getD 2 0 = 0 ∧ f.header.getD 3 0 = 0 ∧
        256 * f.header.getD 2 0 + f.header.getD 3 0 ≠ maxLenCfg.payload_len := by
  refine ⟨by decide, fun rand => ?_⟩
  have hrun : run maxLenCfg rand = txLoop maxLenCfg rand := rfl
  obtain ⟨st, hst, hlen⟩ : ∃ st, txLoop maxLenCfg rand = .finished st ∧ st.frames.length = 1 :=
    ⟨_, rfl, rfl⟩
  refine ⟨st, by rw [hrun, hst], hlen, ?_⟩
  intro f hf
  have hf2 : f ∈ (txLoop maxLenCfg rand).frames := by rw [hst]; exact hf
  obtain ⟨_, h2, _⟩ := header_fields maxLenCfg rand f hf2
  have h3 : maxLenCfg.payload_len % 65536 = 0 := by decide
  have h4 : maxLenCfg.payload_len = 65536 := rfl
  rw [h3] at h2
  rw [h4]
  omega

/-- Three blocks without spacing generate three frames with identifiers 0, 1
and 2, each recovered from its header together with the payload length 200. -/
theorem three_frames_example :
    (txLoop threeFrameCfg Ping.zeroRand).frames.map (fun f => f.pid) = [0, 1, 2] ∧
    (txLoop threeFrameCfg Ping.zeroRand).frames.map
        (fun f => 256 * f.header.getD 0 0 + f.header.getD 1 0) = [0, 1, 2] ∧
    (txLoop threeFrameCfg Ping.zeroRand).frames.map
        (fun f => 256 * f.header.getD 2 0 + f.header.getD 3 0) = [200, 200, 200] := by
  refine ⟨?_, ?_, ?_⟩ <;> decide

/-- With `packet_spacing = 2^32 - 1` the divisor `packet_spacing+1` is 0 in
`unsigned int`: the first block traps before any frame is generated. -/
theorem spacing_wrap_traps (rand : Nat → Nat) :
    run { threeFrameCfg with packet_spacing := 4294967295 } rand =
      .divByZero { pid := 0, rcalls := 0, frames := [] } := by
  rfl

end FramestatsTx
